import Mathlib

/-!
Verification of the x2node-rsparser result-set parser core.

This file shallowly embeds the row-walk state machine of
src/lib/result-set-parser.js (the ResultSetParser class and its column
handler classes), the anchor-linking step of the markup compiler, the
map-merge routines of both the ResultSetParser core and the legacy
RSParser variant found in src/index.js, and a small store model of the
in-place effects of ResultSetParser.reset.  JavaScript objects are
modelled as insertion-ordered association lists, JS Maps likewise,
mutable fields as explicit state threading, and thrown errors as an
Except monad.  Fuel arguments replace the unbounded column cursor loop;
in any real run the cursor strictly increases, so fuel equal to the
column count suffices and exhaustion is reported as an internal error.
-/

set_option autoImplicit false

/-- Raw and typed cell values.  SQL NULL is vnull; strings, numbers and
booleans cover the scalar value types of the library.  Datetimes travel
as strings. -/
inductive Val where
  | vnull : Val
  | vstr : String → Val
  | vnum : Int → Val
  | vbool : Bool → Val
deriving DecidableEq, Repr

/-- Rendering of an extracted id value used when the handlers build a
reference string by JS string concatenation (TypeName + hash + id). -/
def valToString : Val → String
  | Val.vnull => "null"
  | Val.vstr s => s
  | Val.vnum n => toString n
  | Val.vbool b => cond b "true" "false"

/-- Model of the standard value extractors (spec section 4.1): a pure
function mapping a raw cell to a typed value or null.  Null input maps
to null; for well-formed driver input the typed conversion is the
identity on our value universe. -/
def extractValue : Val → Option Val
  | Val.vnull => none
  | v => some v

/-- Model of the isNull extractor used as the null checker by the object
and anchor handlers. -/
def isNullVal : Val → Bool
  | Val.vnull => true
  | _ => false

/-- Values stored inside constructed records: JS null, scalars, nested
objects (insertion-ordered property lists) and arrays. -/
inductive RVal where
  | nullv : RVal
  | scalar : Val → RVal
  | obj : List (String × RVal) → RVal
  | arr : List RVal → RVal

/-- Property lookup on a JS object modelled as an association list. -/
def lookupField : List (String × RVal) → String → Option RVal
  | [], _ => none
  | (k, v) :: rest, n => if k = n then some v else lookupField rest n

/-- Property assignment on a JS object: overwrite keeps the original key
position, a fresh key is appended (JS insertion order). -/
def setPropList : List (String × RVal) → String → RVal → List (String × RVal)
  | [], n, v => [(n, v)]
  | (k, w) :: rest, n, v =>
    if k = n then (n, v) :: rest else (k, w) :: setPropList rest n v

/-- Apply a function to the value stored under a key, if present. -/
def updateFieldWith : List (String × RVal) → String → (RVal → RVal) →
    List (String × RVal)
  | [], _, _ => []
  | (k, w) :: rest, n, g =>
    if k = n then (k, g w) :: rest else (k, w) :: updateFieldWith rest n g

/-- Apply a function to the last element of a list, if any.  Models a
mutation of the most recently created element of a JS array. -/
def updateLastWith {α : Type} : List α → (α → α) → List α
  | [], _ => []
  | [a], g => [g a]
  | a :: b :: rest, g => a :: updateLastWith (b :: rest) g

/-- One step of the compile-time path from the current top record to a
handler's current object: descend into a property, or into the last
element of an array. -/
inductive PathStep where
  | field : String → PathStep
  | last : PathStep
deriving DecidableEq

/-- Apply an edit at the end of a path inside a record tree.  A path
that does not resolve leaves the tree unchanged: in the JS original the
handler would then be writing into an object no longer linked into the
result tree, which is invisible in the output. -/
def updateAt : List PathStep → (RVal → RVal) → RVal → RVal
  | [], g, r => g r
  | PathStep.field n :: p, g, RVal.obj fs =>
      RVal.obj (updateFieldWith fs n (updateAt p g))
  | PathStep.last :: p, g, RVal.arr es =>
      RVal.arr (updateLastWith es (updateAt p g))
  | _ :: _, _, r => r

/-- setObjectProperty on a current object: set a property of an object
value; any other value is left unchanged. -/
def setField (n : String) (v : RVal) : RVal → RVal
  | RVal.obj fs => RVal.obj (setPropList fs n v)
  | r => r

/-- addElement on a current object: push onto the array stored under a
property of an object value. -/
def pushIntoField (n : String) (v : RVal) : RVal → RVal
  | RVal.obj fs =>
      RVal.obj (updateFieldWith fs n (fun rv =>
        match rv with
        | RVal.arr es => RVal.arr (es ++ [v])
        | rv => rv))
  | r => r

/-- getObjectProperty on a current object. -/
def getField (n : String) : RVal → Option RVal
  | RVal.obj fs => lookupField fs n
  | _ => none

/-- Read the value at the end of a path inside a record tree. -/
def readAt : List PathStep → RVal → Option RVal
  | [], r => some r
  | PathStep.field n :: p, RVal.obj fs =>
      match lookupField fs n with
      | some r => readAt p r
      | none => none
  | PathStep.last :: p, RVal.arr es =>
      match es.getLast? with
      | some r => readAt p r
      | none => none
  | _ :: _, _ => none

/-- The three error classes of the library (X2DataError, X2SyntaxError,
X2UsageError), plus an internal marker for model artifacts (fuel
exhaustion, handler state shape mismatch) that cannot arise in a run
started from an initialized parser.  Data errors carry the zero-based
column index and the core of the message produced through
ResultSetParser.invalidData. -/
inductive PErr where
  | dataError : Nat → String → PErr
  | markupError : String → PErr
  | usageError : String → PErr
  | internalError : String → PErr
deriving DecidableEq, Repr

/-- Compile-time location of a parent handler's current object: a path
inside the current (last) top record, or a path inside the referred
record currently being fetched by the handler at the given column. -/
inductive WTarget where
  | topRec : List PathStep → WTarget
  | referred : Nat → List PathStep → WTarget
deriving DecidableEq

/-- Immutable (post-init) per-column handler data: one constructor per
embedded handler class of result-set-parser.js, carrying the fields the
class constructor stores.  Column indices are implicit (the handler's
position in the handler array), parent handler references are the
compile-time location of the parent's current object, anchor handler
references are column indices. -/
inductive HandlerCfg where
  | topId (propName : String) (extract : Val → Option Val) (nextAnchor : Int)
  | singleValue (parent : WTarget) (propName : String)
      (extract : Val → Option Val) (noNulls : Bool)
  | singleObject (anchorIdx : Nat) (parent : WTarget) (propName : String)
      (noNulls : Bool) (nextColInd : Nat)
  | singleRef (parent : WTarget) (propName : String) (refTargetName : String)
      (extract : Val → Option Val) (noNulls : Bool) (isLastSub : Bool)
  | objectArrayAnchor (parent : WTarget) (propName : String)
      (isSimpleNestedObject : Bool) (noNulls : Bool) (nextAnchor : Int)
  | arraySingleRowAnchor (parent : WTarget) (propName : String)
      (noNulls : Bool) (nextAnchor : Int)
  | singleRowValue (anchorIdx : Nat) (extract : Val → Option Val)
  | singleFetchedRef (anchorIdx : Nat) (parent : WTarget) (propName : String)
      (refTargetName : String) (extract : Val → Option Val) (noNulls : Bool)
      (isLastSub : Bool) (nextColInd : Nat)

/-- Mutable per-handler state, one constructor per distinct shape:
TopRecordIdHandler keeps its last id value (none models the JS
undefined), SingleObjectHandler whether it holds a current object,
ObjectArrayAnchorHandler its last raw anchor value (outer none models
undefined, inner none models null), ArraySingleRowAnchorHandler its
anchored flag, SingleFetchedRefHandler whether it holds a current
referred record and its cached noSkip flag.  Handlers with no mutable
fields share inertSt. -/
inductive HState where
  | topIdSt (lastValue : Option Val)
  | inertSt
  | singleObjectSt (hasObject : Bool)
  | objArraySt (lastValue : Option (Option Val))
  | arr1St (anchored : Bool)
  | fetchedSt (hasObject : Bool) (noSkip : Bool)
deriving DecidableEq, Repr

/-- State of a handler right after its constructor ran (each constructor
either calls reset or stores the same defaults). -/
def initHState : HandlerCfg → HState
  | HandlerCfg.topId _ _ _ => HState.topIdSt none
  | HandlerCfg.singleValue _ _ _ _ => HState.inertSt
  | HandlerCfg.singleObject _ _ _ _ _ => HState.singleObjectSt false
  | HandlerCfg.singleRef _ _ _ _ _ _ => HState.inertSt
  | HandlerCfg.objectArrayAnchor _ _ _ _ _ => HState.objArraySt none
  | HandlerCfg.arraySingleRowAnchor _ _ _ _ => HState.arr1St false
  | HandlerCfg.singleRowValue _ _ => HState.inertSt
  | HandlerCfg.singleFetchedRef _ _ _ _ _ _ _ _ => HState.fetchedSt false false

/-- The compiled handler array, immutable after init. -/
structure PCfg where
  handlers : List HandlerCfg

/-- Number of result set columns (the markup length). -/
def PCfg.numColumns (pc : PCfg) : Nat := pc.handlers.length

/-- The mutable state of a ResultSetParser instance: the result
accumulators, the row-skipping bookkeeping, the row counter, the
fetching-references array and the mutable handler states.  instanceTag
models the JS object identity of the parser instance; no operation reads
it. -/
structure PState where
  records : List RVal
  referredRecords : List (String × RVal)
  referredRecordsNRows : List (String × Int)
  skipNextNRows : Int
  rowsProcessed : Nat
  fetchingRefs : List (Nat × String)
  hstates : List HState
  instanceTag : Nat

/-- Generic association lookup (JS Map get / sparse array read). -/
def assocGet {κ β : Type} [DecidableEq κ] : List (κ × β) → κ → Option β
  | [], _ => none
  | (k, v) :: rest, key => if k = key then some v else assocGet rest key

/-- Generic association set (JS Map set / sparse array write): replace
in place or append. -/
def assocSet {κ β : Type} [DecidableEq κ] : List (κ × β) → κ → β →
    List (κ × β)
  | [], key, v => [(key, v)]
  | (k, w) :: rest, key, v =>
    if k = key then (key, v) :: rest else (k, w) :: assocSet rest key v

/-- Parser state right after the constructor and init ran: empty
accumulators, zeroed counters, each handler in its post-constructor
state. -/
def mkInitState (pc : PCfg) (tag : Nat) : PState :=
  { records := []
    referredRecords := []
    referredRecordsNRows := []
    skipNextNRows := 0
    rowsProcessed := 0
    fetchingRefs := []
    hstates := pc.handlers.map initHState
    instanceTag := tag }

/-- Replace the mutable state of the handler at a column. -/
def setHState (s : PState) (i : Nat) (st : HState) : PState :=
  { s with hstates := s.hstates.set i st }

/-- ResultSetParser.addNewRecord: create a new (empty) top record and
push it onto the records accumulator. -/
def addNewRecord (s : PState) : PState :=
  { s with records := s.records ++ [RVal.obj []] }

/-- setObjectProperty dispatched through a parent handler: write a
property of the parent's current object, located inside the last top
record or inside the referred record being fetched at a column. -/
def writeTarget (s : PState) (t : WTarget) (propName : String) (v : RVal) :
    PState :=
  match t with
  | WTarget.topRec p =>
      { s with records :=
          updateLastWith s.records (updateAt p (setField propName v)) }
  | WTarget.referred colInd p =>
      match assocGet s.fetchingRefs colInd with
      | some refVal =>
          { s with referredRecords :=
              (updateFieldWith s.referredRecords refVal
                (updateAt p (setField propName v))) }
      | none => s

/-- addElement dispatched through an anchor handler: push onto the array
stored under a property of the anchor's parent object. -/
def appendTarget (s : PState) (t : WTarget) (propName : String) (v : RVal) :
    PState :=
  match t with
  | WTarget.topRec p =>
      { s with records :=
          updateLastWith s.records (updateAt p (pushIntoField propName v)) }
  | WTarget.referred colInd p =>
      match assocGet s.fetchingRefs colInd with
      | some refVal =>
          { s with referredRecords :=
              (updateFieldWith s.referredRecords refVal
                (updateAt p (pushIntoField propName v))) }
      | none => s

/-- getObjectProperty dispatched through a parent handler. -/
def readTarget (s : PState) (t : WTarget) (propName : String) : Option RVal :=
  match t with
  | WTarget.topRec p =>
      match s.records.getLast? with
      | some r =>
          match readAt p r with
          | some r' => getField propName r'
          | none => none
      | none => none
  | WTarget.referred colInd p =>
      match assocGet s.fetchingRefs colInd with
      | some refVal =>
          match assocGet s.referredRecords refVal with
          | some r =>
              match readAt p r with
              | some r' => getField propName r'
              | none => none
          | none => none
      | none => none

/-- ResultSetParser.beginReferredRecord: indicate that a fetched
referred record started in the current row.  Tracked under the
(reference value, column index) key: if the key is already present the
stored count makes the parser skip that many minus one following rows
and null is returned (modelled as the Boolean true in the first
component); otherwise the referred record is created unless already
present, the fetching reference is remembered, and unless noSkip is
requested the current rowsProcessed is stored under the key.  The
recordTypeDesc parameter of the source only supplies newRecord, modelled
as the empty object. -/
def beginReferredRecord (s : PState) (refVal : String) (colInd : Nat)
    (noSkip : Bool) : Bool × PState :=
  let key := refVal ++ ":" ++ toString colInd
  match assocGet s.referredRecordsNRows key with
  | some r => (true, { s with skipNextNRows := r - 1 })
  | none =>
    let s1 :=
      match assocGet s.referredRecords refVal with
      | some _ => s
      | none =>
          { s with referredRecords := s.referredRecords ++ [(refVal, RVal.obj [])] }
    let s2 := { s1 with fetchingRefs := assocSet s1.fetchingRefs colInd refVal }
    let s3 :=
      if noSkip then s2
      else
        { s2 with referredRecordsNRows :=
            (assocSet s2.referredRecordsNRows key (Int.ofNat s2.rowsProcessed)) }
    (false, s3)

/-- ResultSetParser.endReferredRecord: indicate the last row of a
fetched referred record; replaces the starting row number stored under
the (reference value, column index) key with the number of rows
consumed.  The two unreachable lookups (no fetching reference at the
column, no stored starting row) leave the state unchanged; in the source
they cannot occur because execute recorded both before reset can fire. -/
def endReferredRecord (s : PState) (colInd : Nat) (noSkip : Bool) : PState :=
  if noSkip then s
  else
    match assocGet s.fetchingRefs colInd with
    | none => s
    | some refVal =>
      let key := refVal ++ ":" ++ toString colInd
      match assocGet s.referredRecordsNRows key with
      | none => s
      | some r =>
          { s with referredRecordsNRows :=
              (assocSet s.referredRecordsNRows key (Int.ofNat s.rowsProcessed - r)) }

/-- reset() of the handler at one column, dispatched per class: the
top-id handler forgets the last id, the single-object handler drops its
current object, the anchors forget their last values, the fetched
reference handler first calls endReferredRecord when it holds a current
referred record (its cached noSkip flag survives the reset), and the
stateless handlers do nothing. -/
def resetH (pc : PCfg) (s : PState) (i : Nat) : PState :=
  match pc.handlers.get? i, s.hstates.get? i with
  | some (HandlerCfg.topId _ _ _), _ => setHState s i (HState.topIdSt none)
  | some (HandlerCfg.singleValue _ _ _ _), _ => s
  | some (HandlerCfg.singleRef _ _ _ _ _ _), _ => s
  | some (HandlerCfg.singleRowValue _ _), _ => s
  | some (HandlerCfg.singleObject _ _ _ _ _), _ =>
      setHState s i (HState.singleObjectSt false)
  | some (HandlerCfg.objectArrayAnchor _ _ _ _ _), _ =>
      setHState s i (HState.objArraySt none)
  | some (HandlerCfg.arraySingleRowAnchor _ _ _ _), _ =>
      setHState s i (HState.arr1St false)
  | some (HandlerCfg.singleFetchedRef _ _ _ _ _ _ _ _),
      some (HState.fetchedSt hasObj ns) =>
      let s' := if hasObj then endReferredRecord s i ns else s
      setHState s' i (HState.fetchedSt false ns)
  | _, _ => s

/-- Reset the handlers at the listed columns, in order. -/
def resetRange (pc : PCfg) (s : PState) (idxs : List Nat) : PState :=
  idxs.foldl (resetH pc) s

/-- ResultSetParser.resetChain: reset every handler in the columns
following (and excluding) the given anchor column. -/
def resetChain (pc : PCfg) (s : PState) (anchorColInd : Nat) : PState :=
  resetRange pc s (List.range' (anchorColInd + 1) (pc.numColumns - (anchorColInd + 1)))

/-- ResultSetParser.reset: empty the records array in place, replace the
referred records object, clear the row skipper and the row counter, and
reset every column handler.  The fetching-references array is not
cleared by the source and is kept as is. -/
def parserReset (pc : PCfg) (s : PState) : PState :=
  let s1 := { s with
    records := []
    referredRecords := []
    referredRecordsNRows := []
    skipNextNRows := 0
    rowsProcessed := 0 }
  resetRange pc s1 (List.range pc.numColumns)

/-- The nextAnchor field stored by the AnchorColumnHandler base class
(minus one when no child anchor is linked). -/
def anchorNext : HandlerCfg → Int
  | HandlerCfg.topId _ _ na => na
  | HandlerCfg.objectArrayAnchor _ _ _ _ na => na
  | HandlerCfg.arraySingleRowAnchor _ _ _ na => na
  | _ => -1

/-- empty(upperColInd) of the anchor handler at a column:
ObjectArrayAnchorHandler records the null last value and recursively
empties its child anchors below the bound, ArraySingleRowAnchorHandler
just marks itself anchored.  Fuel bounds the nextAnchor chain; the chain
produced by the compiler is strictly increasing, so fuel equal to the
column count suffices. -/
def emptyAt (pc : PCfg) : Nat → Nat → Nat → PState → PState
  | 0, _, _, s => s
  | fuel + 1, i, upper, s =>
    match pc.handlers.get? i with
    | some (HandlerCfg.objectArrayAnchor _ _ _ _ na) =>
        let s1 := setHState s i (HState.objArraySt (some none))
        if 0 < na ∧ na < (upper : Int) then emptyAt pc fuel na.toNat upper s1
        else s1
    | some (HandlerCfg.arraySingleRowAnchor _ _ _ _) =>
        setHState s i (HState.arr1St true)
    | _ => s

/-- emptyChildAnchors(upperColInd) of the anchor handler at a column:
invoke empty on the linked child anchor when it lies below the bound. -/
def emptyChildAnchors (pc : PCfg) (i : Nat) (upper : Nat) (s : PState) :
    PState :=
  match pc.handlers.get? i with
  | some cfg =>
      let na := anchorNext cfg
      if 0 < na ∧ na < (upper : Int) then emptyAt pc pc.numColumns na.toNat upper s
      else s
  | none => s

/-- TopRecordIdHandler.execute: extract the id (null is a data error);
an id equal to the last row's requires a linked child anchor and
transfers the cursor there; a new id updates the last value, resets the
handlers of all following columns, adds a new top record, sets its id
property and proceeds to column 1. -/
def execTopRecordId (pc : PCfg) (propName : String)
    (extract : Val → Option Val) (nextAnchor : Int) (raw : Val) (s : PState) :
    Except PErr (Nat × PState) :=
  match extract raw with
  | none => Except.error (PErr.dataError 0 "top record id may not be null.")
  | some v =>
    match s.hstates.get? 0 with
    | some (HState.topIdSt lastV) =>
      if lastV = some v then
        if nextAnchor < 0 then
          Except.error
            (PErr.dataError 0 "at least one anchor must change in each row.")
        else Except.ok (nextAnchor.toNat, s)
      else
        let s1 := setHState s 0 (HState.topIdSt (some v))
        let s2 := resetChain pc s1 0
        let s3 := addNewRecord s2
        let s4 := writeTarget s3 (WTarget.topRec []) propName (RVal.scalar v)
        Except.ok (1, s4)
    | _ => Except.error (PErr.internalError "handler state shape mismatch.")

/-- SingleValueHandler.execute: a non-null extracted value is written to
the parent under the property name; a null value is a data error when
the property is not optional and otherwise writes nothing; either way
the cursor advances to the next column. -/
def execSingleValue (parent : WTarget) (propName : String)
    (extract : Val → Option Val) (noNulls : Bool) (i : Nat) (raw : Val)
    (s : PState) : Except PErr (Nat × PState) :=
  match extract raw with
  | some v => Except.ok (i + 1, writeTarget s parent propName (RVal.scalar v))
  | none =>
    if noNulls then
      Except.error (PErr.dataError i
        ("unexpected NULL for property " ++ propName ++ " that is not optional."))
    else Except.ok (i + 1, s)

/-- SingleObjectHandler.execute: a null object-indicator cell is a data
error for a non-optional property, otherwise empties the child anchors
up to the post-subtree column and skips there; a non-null cell allocates
a new nested object, binds it into the parent and descends. -/
def execSingleObject (pc : PCfg) (anchorIdx : Nat) (parent : WTarget)
    (propName : String) (noNulls : Bool) (nextColInd : Nat) (i : Nat)
    (raw : Val) (s : PState) : Except PErr (Nat × PState) :=
  if isNullVal raw then
    if noNulls then
      Except.error (PErr.dataError i
        ("unexpected NULL for property " ++ propName ++ " that is not optional."))
    else Except.ok (nextColInd, emptyChildAnchors pc anchorIdx nextColInd s)
  else
    let s1 := setHState s i (HState.singleObjectSt true)
    let s2 := writeTarget s1 parent propName (RVal.obj [])
    Except.ok (i + 1, s2)

/-- SingleRefHandler.execute: a non-null referred id writes the
canonical reference string to the parent; a null id is a data error for
a non-optional property; the last handler of a polymorphic target tier
additionally requires some target to have produced a value. -/
def execSingleRef (parent : WTarget) (propName : String)
    (refTargetName : String) (extract : Val → Option Val) (noNulls : Bool)
    (isLastSub : Bool) (i : Nat) (raw : Val) (s : PState) :
    Except PErr (Nat × PState) :=
  match extract raw with
  | some rid =>
      Except.ok (i + 1,
        writeTarget s parent propName
          (RVal.scalar (Val.vstr (refTargetName ++ "#" ++ valToString rid))))
  | none =>
    if noNulls then
      Except.error (PErr.dataError i
        ("unexpected NULL for property " ++ propName ++ " that is not optional."))
    else if isLastSub && (readTarget s parent propName).isNone then
      Except.error (PErr.dataError i "no value for polymorphic reference.")
    else Except.ok (i + 1, s)

/-- ObjectArrayAnchorHandler.execute: the full case analysis over the
anchor cell and the last anchor value; see the claim C4 theorems. -/
def execObjectArrayAnchor (pc : PCfg) (parent : WTarget) (propName : String)
    (isSimpleNestedObject : Bool) (noNulls : Bool) (nextAnchor : Int)
    (i : Nat) (raw : Val) (s : PState) : Except PErr (Nat × PState) :=
  match s.hstates.get? i with
  | some (HState.objArraySt lastV) =>
    if isNullVal raw then
      match lastV with
      | some none =>
          Except.error (PErr.dataError i "repeated NULL in the anchor column.")
      | some (some _) =>
          Except.error (PErr.dataError i "unexpected NULL in the anchor column.")
      | none =>
        if noNulls then
          Except.error (PErr.dataError i
            ("unexpected NULL for property " ++ propName ++
              " that is not optional."))
        else
          Except.ok (pc.numColumns, setHState s i (HState.objArraySt (some none)))
    else
      match lastV with
      | some none =>
          Except.error (PErr.dataError i "NULL expected in the anchor column.")
      | _ =>
        if lastV = some (some raw) then
          if nextAnchor < 0 then
            Except.error
              (PErr.dataError i "at least one anchor must change in each row.")
          else Except.ok (nextAnchor.toNat, s)
        else
          let s1 :=
            if lastV = none then writeTarget s parent propName (RVal.arr [])
            else s
          let s2 := setHState s1 i (HState.objArraySt (some (some raw)))
          let s3 := resetChain pc s2 i
          let s4 :=
            if isSimpleNestedObject then
              appendTarget s3 parent propName (RVal.obj [])
            else s3
          Except.ok (i + 1, s4)
  | _ => Except.error (PErr.internalError "handler state shape mismatch.")

/-- ArraySingleRowAnchorHandler.execute: once anchored, a null anchor is
a data error and otherwise the cursor just advances; the first time, the
handler anchors itself, a null cell skips the (always last) value column
failing for a non-optional property, and a non-null cell allocates the
array and binds it into the parent. -/
def execArraySingleRowAnchor (parent : WTarget) (propName : String)
    (noNulls : Bool) (i : Nat) (raw : Val) (s : PState) :
    Except PErr (Nat × PState) :=
  match s.hstates.get? i with
  | some (HState.arr1St anchored) =>
    let nullAnchor := isNullVal raw
    if anchored then
      if nullAnchor then
        Except.error (PErr.dataError i "unexpected NULL in the anchor column.")
      else Except.ok (i + 1, s)
    else
      let s1 := setHState s i (HState.arr1St true)
      if nullAnchor then
        if noNulls then
          Except.error (PErr.dataError i
            ("unexpected NULL for property " ++ propName ++
              " that is not optional."))
        else Except.ok (i + 2, s1)
      else Except.ok (i + 1, writeTarget s1 parent propName (RVal.arr []))
  | _ => Except.error (PErr.internalError "handler state shape mismatch.")

/-- SingleRowValueHandler.execute: extract the element value and append
it to the anchor's current array (a null value appends a null slot). -/
def execSingleRowValue (pc : PCfg) (anchorIdx : Nat)
    (extract : Val → Option Val) (i : Nat) (raw : Val) (s : PState) :
    Except PErr (Nat × PState) :=
  match pc.handlers.get? anchorIdx with
  | some (HandlerCfg.arraySingleRowAnchor parent propName _ _) =>
      let elemv :=
        match extract raw with
        | some v => RVal.scalar v
        | none => RVal.nullv
      Except.ok (i + 1, appendTarget s parent propName elemv)
  | _ => Except.error (PErr.internalError "handler state shape mismatch.")

/-- SingleFetchedRefHandler.execute: a null referred id fails for a
non-optional property (or a value-less last polymorphic target), else
empties the child anchors and skips the referred record columns; a
non-null id writes the reference value into the parent, computes and
caches the noSkip flag as the test that columns follow the referred
record's subtree in the markup, begins the referred record, and either
descends or, when the record was already materialized, skips to the
post-subtree column. -/
def execSingleFetchedRef (pc : PCfg) (anchorIdx : Nat) (parent : WTarget)
    (propName : String) (refTargetName : String) (extract : Val → Option Val)
    (noNulls : Bool) (isLastSub : Bool) (nextColInd : Nat) (i : Nat)
    (raw : Val) (s : PState) : Except PErr (Nat × PState) :=
  match s.hstates.get? i with
  | some (HState.fetchedSt _ ns0) =>
    match extract raw with
    | none =>
      if noNulls then
        Except.error (PErr.dataError i
          ("unexpected NULL for property " ++ propName ++
            " that is not optional."))
      else if isLastSub && (readTarget s parent propName).isNone then
        Except.error (PErr.dataError i "no value for polymorphic reference.")
      else Except.ok (nextColInd, emptyChildAnchors pc anchorIdx nextColInd s)
    | some rid =>
      let refVal := refTargetName ++ "#" ++ valToString rid
      let s1 := writeTarget s parent propName (RVal.scalar (Val.vstr refVal))
      let ns := ns0 || decide (nextColInd < pc.numColumns)
      let res := beginReferredRecord s1 refVal i ns
      let s3 := setHState res.2 i (HState.fetchedSt (!res.1) ns)
      if res.1 then Except.ok (nextColInd, s3) else Except.ok (i + 1, s3)
  | _ => Except.error (PErr.internalError "handler state shape mismatch.")

/-- One step of the row walk: execute the handler bound to the column. -/
def execStep (pc : PCfg) (i : Nat) (raw : Val) (s : PState) :
    Except PErr (Nat × PState) :=
  match pc.handlers.get? i with
  | none => Except.error (PErr.internalError "no handler for column.")
  | some (HandlerCfg.topId pn ex na) => execTopRecordId pc pn ex na raw s
  | some (HandlerCfg.singleValue pa pn ex nn) =>
      execSingleValue pa pn ex nn i raw s
  | some (HandlerCfg.singleObject ai pa pn nn nc) =>
      execSingleObject pc ai pa pn nn nc i raw s
  | some (HandlerCfg.singleRef pa pn rt ex nn il) =>
      execSingleRef pa pn rt ex nn il i raw s
  | some (HandlerCfg.objectArrayAnchor pa pn si nn na) =>
      execObjectArrayAnchor pc pa pn si nn na i raw s
  | some (HandlerCfg.arraySingleRowAnchor pa pn nn _) =>
      execArraySingleRowAnchor pa pn nn i raw s
  | some (HandlerCfg.singleRowValue ai ex) =>
      execSingleRowValue pc ai ex i raw s
  | some (HandlerCfg.singleFetchedRef ai pa pn rt ex nn il nc) =>
      execSingleFetchedRef pc ai pa pn rt ex nn il nc i raw s

/-- The inner cursor loop of feedRow: repeatedly execute the handler at
the cursor until the cursor reaches the column count.  Fuel bounds the
loop; the cursor strictly increases in any real run. -/
def walkFrom (pc : PCfg) (row : List Val) : Nat → Nat → PState →
    Except PErr PState
  | 0, _, _ => Except.error (PErr.internalError "column walk did not terminate.")
  | fuel + 1, colInd, s =>
    if colInd < pc.numColumns then
      match execStep pc colInd (row.getD colInd Val.vnull) s with
      | Except.error e => Except.error e
      | Except.ok (next, s') => walkFrom pc row fuel next s'
    else Except.ok s

/-- ResultSetParser.feedRow (positional row shape): count the row; when
the skip counter is positive, consume the row by decrementing the
counter without executing any handler; otherwise run the cursor loop
from column 0. -/
def feedRow (pc : PCfg) (s : PState) (row : List Val) : Except PErr PState :=
  let s1 := { s with rowsProcessed := s.rowsProcessed + 1 }
  if s1.skipNextNRows > 0 then
    Except.ok { s1 with skipNextNRows := s1.skipNextNRows - 1 }
  else walkFrom pc row (pc.numColumns + 1) 0 s1

/-- Feed a whole result set, stopping at the first error. -/
def feedAll (pc : PCfg) (s : PState) : List (List Val) → Except PErr PState
  | [] => Except.ok s
  | row :: rest =>
    match feedRow pc s row with
    | Except.error e => Except.error e
    | Except.ok s' => feedAll pc s' rest

/-- The client-visible outputs: the records and referredRecords
accessors. -/
def outputs (r : Except PErr PState) :
    Except PErr (List RVal × List (String × RVal)) :=
  r.map fun s => (s.records, s.referredRecords)

/-- The nextAnchor cell of an AnchorColumnHandler during markup
compilation: minus one until a child anchor is linked. -/
structure AnchorLink where
  nextAnchor : Int
deriving DecidableEq, Repr

/-- An anchor handler as its constructor leaves it: no child anchor. -/
def initAnchorLink : AnchorLink := { nextAnchor := -1 }

/-- AnchorColumnHandler.setNextAnchor: link a child anchor, failing with
the more-than-one-collection-axis markup error when a child anchor is
already linked. -/
def setNextAnchor (a : AnchorLink) (next : Nat) : Except PErr AnchorLink :=
  if a.nextAnchor ≥ 0 then
    Except.error (PErr.markupError
      "More than one collection axis: anchor already has a child anchor.")
  else Except.ok { nextAnchor := (next : Int) }

/-- The sequence of setNextAnchor calls the compiler issues against one
anchor while compiling a markup, applied in order. -/
def applyAnchorLinks : AnchorLink → List Nat → Except PErr AnchorLink
  | a, [] => Except.ok a
  | a, c :: rest =>
    match setNextAnchor a c with
    | Except.error e => Except.error e
    | Except.ok a' => applyAnchorLinks a' rest

/-- The message of the map-size merge error. -/
def mergeSizesMsg : String := "Attempt to merge object maps of different sizes."

/-- The message of the map-keys merge error. -/
def mergeKeysMsg : String := "Attempt to merge maps with different keys."

/-- The message of the null-alignment merge error of the map routine. -/
def mergeNullMsg : String := "Attempt to merge non-null map element with null."

/-- The shared per-key loop of the map merge routines (the keys.forEach
body of the non-polymorphic branch): a key of the first map missing from
the second raises the different-keys usage error, null entries must
align, and otherwise the entry objects are merged pairwise by the given
object merge (standing for the recursive mergeObjects call with the
element container). -/
def mergeMapsEntries (mo : RVal → RVal → Except PErr RVal)
    (map2 : List (String × RVal)) :
    List (String × RVal) → Except PErr (List (String × RVal))
  | [] => Except.ok []
  | (k, obj1) :: rest =>
    match lookupField map2 k with
    | none => Except.error (PErr.usageError mergeKeysMsg)
    | some obj2 =>
      match obj1, obj2 with
      | RVal.nullv, RVal.nullv =>
        match mergeMapsEntries mo map2 rest with
        | Except.error e => Except.error e
        | Except.ok rest' => Except.ok ((k, RVal.nullv) :: rest')
      | RVal.nullv, _ => Except.error (PErr.usageError mergeNullMsg)
      | _, RVal.nullv => Except.error (PErr.usageError mergeNullMsg)
      | o1, o2 =>
        match mo o1 o2 with
        | Except.error e => Except.error e
        | Except.ok m =>
          match mergeMapsEntries mo map2 rest with
          | Except.error e => Except.error e
          | Except.ok rest' => Except.ok ((k, m) :: rest')

/-- ResultSetParser.mergeMaps of src/lib/result-set-parser.js
(non-polymorphic branch): compare the key counts of the two maps
(Object.keys(map1).length against Object.keys(map2).length), then run
the per-key loop. -/
def coreMergeMaps (mo : RVal → RVal → Except PErr RVal)
    (map1 map2 : List (String × RVal)) :
    Except PErr (List (String × RVal)) :=
  if map1.length ≠ map2.length then Except.error (PErr.usageError mergeSizesMsg)
  else mergeMapsEntries mo map2 map1

/-- The size guard of RSParser.mergeMaps in src/index.js.  The source
line compares keys.length, a number, against Object.keys(map2), an
array, with the strict inequality operator; under JS strict comparison
two values of different types are never equal, so the guard holds on
every pair of maps. -/
def rsparserMergeMapsSizeGuard (_ _ : List (String × RVal)) : Bool := true

/-- RSParser.mergeMaps of src/index.js (non-polymorphic branch): the
always-true size guard followed by the same per-key loop. -/
def rsparserMergeMaps (mo : RVal → RVal → Except PErr RVal)
    (map1 map2 : List (String × RVal)) :
    Except PErr (List (String × RVal)) :=
  if rsparserMergeMapsSizeGuard map1 map2 then
    Except.error (PErr.usageError mergeSizesMsg)
  else mergeMapsEntries mo map2 map1

/-- SingleValueHandler.execute of the legacy RSParser variant in
src/index.js: extract the value, write it to the parent when non-null
(the write is returned as data), and advance; the variant consults no
optionality and can raise no error, which the total return type
records. -/
def rsparserSingleValueExec (colInd : Nat) (propName : String)
    (extract : Val → Option Val) (raw : Val) :
    Except PErr (Nat × Option (String × Val)) :=
  match extract raw with
  | some v => Except.ok (colInd + 1, some (propName, v))
  | none => Except.ok (colInd + 1, none)

/-- A store of JS object identities for the frame analysis of reset():
array objects (such as the records array), plain objects (such as the
referred records table) and arrays of handler references, addressed by
allocation index.  nextLoc is the next fresh address. -/
structure Store where
  arrays : Nat → List RVal
  objects : Nat → List (String × RVal)
  handlerArrays : Nat → List Nat
  nextLoc : Nat

/-- The reference-valued fields of a ResultSetParser instance together
with its by-value counters, for the frame analysis of reset(). -/
structure ParserObjRefs where
  recordsLoc : Nat
  referredLoc : Nat
  handlersLoc : Nat
  nrows : List (String × Int)
  skipNextNRows : Int
  rowsProcessed : Nat

/-- ResultSetParser.reset over the store model: the records array is
emptied in place at its existing address (the source sets its length to
0), the referred records field is re-pointed at a freshly allocated
empty object while the old object is left untouched, the row skipper
map is cleared and the counters zeroed, and the handler array field and
its contents (the handler references) are not modified; the per-handler
reset calls mutate the handler objects themselves, not the array. -/
def storeReset (st : Store) (p : ParserObjRefs) : Store × ParserObjRefs :=
  let st1 : Store :=
    { st with arrays := fun l => if l = p.recordsLoc then [] else st.arrays l }
  let fresh := st1.nextLoc
  let st2 : Store :=
    { st1 with
        objects := fun l => if l = fresh then [] else st1.objects l
        nextLoc := fresh + 1 }
  (st2,
    { p with
        referredLoc := fresh
        nrows := []
        skipNextNRows := 0
        rowsProcessed := 0 })

/-- The records accessor of the store model: it hands out the reference
held in the records field. -/
def recordsRef (p : ParserObjRefs) : Nat := p.recordsLoc

/-- The referredRecords accessor of the store model. -/
def referredRecordsRef (p : ParserObjRefs) : Nat := p.referredLoc

/-- Dereference an array object. -/
def derefArray (st : Store) (l : Nat) : List RVal := st.arrays l

/-- Dereference a plain object. -/
def derefObject (st : Store) (l : Nat) : List (String × RVal) := st.objects l

/-! Helper lemmas about the association and list primitives. -/

theorem assocGet_assocSet_self {κ β : Type} [DecidableEq κ]
    (l : List (κ × β)) (k : κ) (v : β) : assocGet (assocSet l k v) k = some v := by
  induction l with
  | nil => simp [assocGet, assocSet]
  | cons kv rest ih =>
    rcases kv with ⟨k', w⟩
    by_cases h : k' = k
    · simp [assocSet, assocGet, h]
    · simp [assocSet, assocGet, h, ih]

theorem assocGet_assocSet_ne {κ β : Type} [DecidableEq κ]
    (l : List (κ × β)) (k k' : κ) (v : β) (h : k ≠ k') :
    assocGet (assocSet l k v) k' = assocGet l k' := by
  induction l with
  | nil => simp [assocGet, assocSet, h]
  | cons kv rest ih =>
    rcases kv with ⟨k0, w⟩
    by_cases h0 : k0 = k
    · simp [assocSet, assocGet, h0, h]
    · simp [assocSet, assocGet, h0, ih]

theorem listGet_set_self {α : Type} :
    ∀ (l : List α) (i : Nat) (a : α), i < l.length →
      (l.set i a).get? i = some a := by
  intro l
  induction l with
  | nil => intro i a h; simp at h
  | cons b rest ih =>
    intro i a h
    cases i with
    | zero => simp [List.set]
    | succ j =>
      simp only [List.set, List.get?]
      exact ih j a (Nat.lt_of_succ_lt_succ h)

theorem listGet_set_ne {α : Type} :
    ∀ (l : List α) (i j : Nat) (a : α), i ≠ j →
      (l.set i a).get? j = l.get? j := by
  intro l
  induction l with
  | nil => intro i j a _; simp
  | cons b rest ih =>
    intro i j a h
    cases i with
    | zero =>
      cases j with
      | zero => exact absurd rfl h
      | succ j' => simp [List.set]
    | succ i' =>
      cases j with
      | zero => simp [List.set]
      | succ j' =>
        simp only [List.set, List.get?]
        exact ih i' j' a (fun hc => h (by rw [hc]))

theorem listSet_get_self {α : Type} :
    ∀ (l : List α) (i : Nat) (a : α), l.get? i = some a → l.set i a = l := by
  intro l
  induction l with
  | nil => intro i a h; simp [List.get?] at h
  | cons b rest ih =>
    intro i a h
    cases i with
    | zero => simp [List.get?] at h; simp [List.set, h]
    | succ j =>
      simp only [List.get?] at h
      simp [List.set, ih j a h]

theorem listGet_map {α β : Type} (f : α → β) :
    ∀ (l : List α) (i : Nat), (l.map f).get? i = (l.get? i).map f := by
  intro l
  induction l with
  | nil => intro i; simp
  | cons a rest ih =>
    intro i
    cases i with
    | zero => simp
    | succ j => simp only [List.map, List.get?]; exact ih j

/-! Claim C6: at most one child anchor per anchor. -/

/-- Claim C6.  In every markup accepted by init, every anchor has at
most one linked child anchor.  The nextAnchor cell of an anchor is only
ever assigned through setNextAnchor (the constructor initializes it to
minus one); this theorem shows that any sequence of setNextAnchor calls
the compiler issues against one anchor can only complete successfully
when it contains at most one call, that the cell is occupied exactly
when a call was made, and that a further link attempt against an
occupied cell always fails with the more-than-one-collection-axis markup
error. -/
theorem c6_anchor_at_most_one_child (calls : List Nat) (a : AnchorLink)
    (h : applyAnchorLinks initAnchorLink calls = Except.ok a) :
    calls.length ≤ 1 ∧ (0 ≤ a.nextAnchor ↔ calls ≠ []) ∧
    (∀ (a' : AnchorLink) (c : Nat), 0 ≤ a'.nextAnchor →
      setNextAnchor a' c = Except.error (PErr.markupError
        "More than one collection axis: anchor already has a child anchor.")) := by
  have hblocked : ∀ (a' : AnchorLink) (c : Nat), 0 ≤ a'.nextAnchor →
      setNextAnchor a' c = Except.error (PErr.markupError
        "More than one collection axis: anchor already has a child anchor.") := by
    intro a' c hge
    simp [setNextAnchor, hge]
  refine ⟨?_, ?_, hblocked⟩
  · match calls with
    | [] => simp
    | [c] => simp
    | c1 :: c2 :: rest =>
      exfalso
      have h1 : setNextAnchor initAnchorLink c1 =
          Except.ok { nextAnchor := (c1 : Int) } := by
        simp [setNextAnchor, initAnchorLink]
      rw [show applyAnchorLinks initAnchorLink (c1 :: c2 :: rest) =
          applyAnchorLinks { nextAnchor := (c1 : Int) } (c2 :: rest) by
        simp [applyAnchorLinks, h1]] at h
      have h2 := hblocked { nextAnchor := (c1 : Int) } c2 (by positivity)
      simp [applyAnchorLinks, h2] at h
  · match calls with
    | [] =>
      simp [applyAnchorLinks] at h
      subst h
      simp [initAnchorLink]
    | c1 :: rest =>
      have h1 : setNextAnchor initAnchorLink c1 =
          Except.ok { nextAnchor := (c1 : Int) } := by
        simp [setNextAnchor, initAnchorLink]
      rw [show applyAnchorLinks initAnchorLink (c1 :: rest) =
          applyAnchorLinks { nextAnchor := (c1 : Int) } rest by
        simp [applyAnchorLinks, h1]] at h
      match rest with
      | [] =>
        simp [applyAnchorLinks] at h
        subst h
        simp
      | c2 :: rest' =>
        exfalso
        have h2 := hblocked { nextAnchor := (c1 : Int) } c2 (by positivity)
        simp [applyAnchorLinks, h2] at h

/-- Witness for C6 at a concrete link sequence. -/
theorem c6_witness :
    applyAnchorLinks initAnchorLink [3] = Except.ok { nextAnchor := 3 } ∧
    ([3] : List Nat).length ≤ 1 ∧
    (0 ≤ ({ nextAnchor := 3 } : AnchorLink).nextAnchor ↔ ([3] : List Nat) ≠ []) ∧
    (∀ (a' : AnchorLink) (c : Nat), 0 ≤ a'.nextAnchor →
      setNextAnchor a' c = Except.error (PErr.markupError
        "More than one collection axis: anchor already has a child anchor.")) :=
  ⟨rfl, c6_anchor_at_most_one_child [3] { nextAnchor := 3 } rfl⟩

/-! Claim C9: frame effects of reset on aliased containers. -/

/-- Claim C9.  reset() empties the existing records array in place but
replaces the referred-records container with a new object: an array
reference previously obtained from the records accessor dereferences to
the emptied array, an object reference previously obtained from the
referredRecords accessor retains its pre-reset entries (the new field
points at a fresh empty object), and the compiled handler array is
preserved unchanged. -/
theorem c9_reset_frame (st : Store) (p : ParserObjRefs)
    (h : p.referredLoc < st.nextLoc) :
    derefArray (storeReset st p).1 (recordsRef p) = [] ∧
    (storeReset st p).2.referredLoc ≠ p.referredLoc ∧
    derefObject (storeReset st p).1 (referredRecordsRef p) =
      derefObject st (referredRecordsRef p) ∧
    derefObject (storeReset st p).1 (referredRecordsRef (storeReset st p).2) = [] ∧
    (storeReset st p).2.handlersLoc = p.handlersLoc ∧
    (storeReset st p).1.handlerArrays p.handlersLoc = st.handlerArrays p.handlersLoc := by
  have hne : p.referredLoc ≠ st.nextLoc := Nat.ne_of_lt h
  refine ⟨?_, ?_, ?_, ?_, rfl, rfl⟩
  · simp [storeReset, derefArray, recordsRef]
  · simp only [storeReset]
    exact fun hc => hne hc.symm
  · simp [storeReset, derefObject, referredRecordsRef, hne]
  · simp [storeReset, derefObject, referredRecordsRef]

/-- Witness for C9 at a concrete store: the referred-records object at
address 0 holds one entry, the records array at address 1 holds one
record, the handler array at address 2 holds two handler references. -/
theorem c9_witness :
    (({ recordsLoc := 1, referredLoc := 0, handlersLoc := 2, nrows := [],
        skipNextNRows := 0, rowsProcessed := 4 } : ParserObjRefs).referredLoc < 5) ∧
    (derefArray
      (storeReset
        { arrays := fun _ => [RVal.obj []],
          objects := fun l => if l = 0 then [("Location#25", RVal.obj [])] else [],
          handlerArrays := fun _ => [0, 1], nextLoc := 5 }
        { recordsLoc := 1, referredLoc := 0, handlersLoc := 2, nrows := [],
          skipNextNRows := 0, rowsProcessed := 4 }).1 1 = [] ∧
     (storeReset
        { arrays := fun _ => [RVal.obj []],
          objects := fun l => if l = 0 then [("Location#25", RVal.obj [])] else [],
          handlerArrays := fun _ => [0, 1], nextLoc := 5 }
        { recordsLoc := 1, referredLoc := 0, handlersLoc := 2, nrows := [],
          skipNextNRows := 0, rowsProcessed := 4 }).2.referredLoc ≠ 0 ∧
     derefObject
      (storeReset
        { arrays := fun _ => [RVal.obj []],
          objects := fun l => if l = 0 then [("Location#25", RVal.obj [])] else [],
          handlerArrays := fun _ => [0, 1], nextLoc := 5 }
        { recordsLoc := 1, referredLoc := 0, handlersLoc := 2, nrows := [],
          skipNextNRows := 0, rowsProcessed := 4 }).1 0 =
      derefObject
        { arrays := fun _ => [RVal.obj []],
          objects := fun l => if l = 0 then [("Location#25", RVal.obj [])] else [],
          handlerArrays := fun _ => [0, 1], nextLoc := 5 } 0 ∧
     derefObject
      (storeReset
        { arrays := fun _ => [RVal.obj []],
          objects := fun l => if l = 0 then [("Location#25", RVal.obj [])] else [],
          handlerArrays := fun _ => [0, 1], nextLoc := 5 }
        { recordsLoc := 1, referredLoc := 0, handlersLoc := 2, nrows := [],
          skipNextNRows := 0, rowsProcessed := 4 }).1
      (referredRecordsRef
        (storeReset
          { arrays := fun _ => [RVal.obj []],
            objects := fun l => if l = 0 then [("Location#25", RVal.obj [])] else [],
            handlerArrays := fun _ => [0, 1], nextLoc := 5 }
          { recordsLoc := 1, referredLoc := 0, handlersLoc := 2, nrows := [],
            skipNextNRows := 0, rowsProcessed := 4 }).2) = [] ∧
     (storeReset
        { arrays := fun _ => [RVal.obj []],
          objects := fun l => if l = 0 then [("Location#25", RVal.obj [])] else [],
          handlerArrays := fun _ => [0, 1], nextLoc := 5 }
        { recordsLoc := 1, referredLoc := 0, handlersLoc := 2, nrows := [],
          skipNextNRows := 0, rowsProcessed := 4 }).2.handlersLoc = 2 ∧
     (storeReset
        { arrays := fun _ => [RVal.obj []],
          objects := fun l => if l = 0 then [("Location#25", RVal.obj [])] else [],
          handlerArrays := fun _ => [0, 1], nextLoc := 5 }
        { recordsLoc := 1, referredLoc := 0, handlersLoc := 2, nrows := [],
          skipNextNRows := 0, rowsProcessed := 4 }).1.handlerArrays 2 = [0, 1]) :=
  ⟨by decide,
   c9_reset_frame
     { arrays := fun _ => [RVal.obj []],
       objects := fun l => if l = 0 then [("Location#25", RVal.obj [])] else [],
       handlerArrays := fun _ => [0, 1], nextLoc := 5 }
     { recordsLoc := 1, referredLoc := 0, handlersLoc := 2, nrows := [],
       skipNextNRows := 0, rowsProcessed := 4 }
     (by decide)⟩

/-! Claim C5: map merge and key-set matching. -/

/-- Claim C5 theorem (divergence witness).  RSParser.mergeMaps of
src/index.js raises the different-sizes usage error on every pair of
maps, including — at the failing input of the claim — two maps with
identical key sets: its size guard compares the key count (a number)
against the key array itself, which under JS strict inequality is true
on every input.  The claim states that a UsageError is raised exactly
when the key sets differ; this theorem shows the routine errors even
when they agree, so the claim correctly describes the intent (and the
sibling routine in src/lib/result-set-parser.js) while this code is a
slip. -/
theorem c5_rsparser_mergeMaps_always_size_error
    (mo : RVal → RVal → Except PErr RVal)
    (map1 map2 : List (String × RVal)) :
    rsparserMergeMaps mo map1 map2 =
      Except.error (PErr.usageError mergeSizesMsg) := rfl

/-- An Except value that is not ok is an error. -/
theorem exists_error_of_not_isOk {a : Type} (x : Except PErr a)
    (h : x.isOk = false) : ∃ e, x = Except.error e := by
  cases x with
  | error e => exact ⟨e, rfl⟩
  | ok y => simp [Except.isOk, Except.toBool] at h

/-- Supporting: the per-key loop shared by both variants errors whenever
some key of the first map is missing from the second. -/
theorem mergeMapsEntries_error_of_missing_key
    (mo : RVal → RVal → Except PErr RVal) (map2 : List (String × RVal)) :
    ∀ (map1 : List (String × RVal)),
      (∃ k v, (k, v) ∈ map1 ∧ lookupField map2 k = none) →
      ∃ e, mergeMapsEntries mo map2 map1 = Except.error e := by
  intro map1
  induction map1 with
  | nil => rintro ⟨k, v, hmem, _⟩; simp at hmem
  | cons kv rest ih =>
    rintro ⟨k, v, hmem, hmiss⟩
    rcases kv with ⟨k0, v0⟩
    rcases List.mem_cons.mp hmem with heq | hrest
    · have hk : k = k0 := congrArg Prod.fst heq
      subst hk
      apply exists_error_of_not_isOk
      simp [mergeMapsEntries, hmiss, Except.isOk, Except.toBool]
    · obtain ⟨e, he⟩ := ih ⟨k, v, hrest, hmiss⟩
      apply exists_error_of_not_isOk
      simp only [mergeMapsEntries]
      repeat' split
      all_goals simp_all [Except.isOk, Except.toBool]

/-- Supporting: the per-key loop never raises the two map-shape usage
errors when every key of the first map is present in the second,
provided the entrywise merge raises none (any error it produces is
passed through unchanged). -/
theorem mergeMapsEntries_no_shape_error
    (mo : RVal → RVal → Except PErr RVal) (map2 : List (String × RVal))
    (hmo : ∀ a b e, mo a b = Except.error e →
      e ≠ PErr.usageError mergeSizesMsg ∧ e ≠ PErr.usageError mergeKeysMsg) :
    ∀ (map1 : List (String × RVal)),
      (∀ k v, (k, v) ∈ map1 → (lookupField map2 k).isSome) →
      ∀ e, mergeMapsEntries mo map2 map1 = Except.error e →
        e ≠ PErr.usageError mergeSizesMsg ∧ e ≠ PErr.usageError mergeKeysMsg := by
  intro map1
  induction map1 with
  | nil => intro _ e he; simp [mergeMapsEntries] at he
  | cons kv rest ih =>
    rintro hsub e he
    rcases kv with ⟨k0, v0⟩
    have h0 : (lookupField map2 k0).isSome :=
      hsub k0 v0 (List.mem_cons_self _ _)
    obtain ⟨obj2, hobj2⟩ := Option.isSome_iff_exists.mp h0
    have hrest : ∀ e', mergeMapsEntries mo map2 rest = Except.error e' →
        e' ≠ PErr.usageError mergeSizesMsg ∧ e' ≠ PErr.usageError mergeKeysMsg :=
      fun e' he' => ih (fun k v hm => hsub k v (List.mem_cons_of_mem _ hm)) e' he'
    simp only [mergeMapsEntries] at he
    rw [hobj2] at he
    repeat' split at he
    all_goals first
      | exact Except.noConfusion he
      | (injection he with h1; subst h1;
         exact ⟨by decide, by decide⟩)
      | (injection he with h1; subst h1;
         exact hmo _ _ _ (by assumption))
      | (injection he with h1; subst h1;
         exact hrest _ (by assumption))
      | simp_all

/-- Supporting: coreMergeMaps (the src/lib/result-set-parser.js variant)
raises no map-shape usage error on maps with matching key sets: with
equal key counts the size guard passes, and with every key of the first
map present in the second the different-keys error cannot fire. -/
theorem coreMergeMaps_no_shape_error_of_matching_keys
    (mo : RVal → RVal → Except PErr RVal) (map1 map2 : List (String × RVal))
    (hmo : ∀ a b e, mo a b = Except.error e →
      e ≠ PErr.usageError mergeSizesMsg ∧ e ≠ PErr.usageError mergeKeysMsg)
    (hlen : map1.length = map2.length)
    (hsub : ∀ k v, (k, v) ∈ map1 → (lookupField map2 k).isSome) :
    ∀ e, coreMergeMaps mo map1 map2 = Except.error e →
      e ≠ PErr.usageError mergeSizesMsg ∧ e ≠ PErr.usageError mergeKeysMsg := by
  intro e he
  rw [coreMergeMaps, if_neg (by simp [hlen])] at he
  exact mergeMapsEntries_no_shape_error mo map2 hmo map1 hsub e he

/-! Claim C8: single-value column behaviour. -/

/-- Claim C8 counterexample.  The claim asserts that every single-value
column's execute raises a DataError on a null cell when the property is
not optional.  SingleValueHandler.execute of the legacy RSParser variant
in src/index.js consults no optionality at all: on a null cell — here
for a property that the schema does not declare optional — it writes
nothing, returns the next column index, and cannot raise any error, as
its total return type shows. -/
theorem c8_counterexample :
    rsparserSingleValueExec 1 "firstName" extractValue Val.vnull =
      Except.ok (2, none) ∧
    (∀ e, rsparserSingleValueExec 1 "firstName" extractValue Val.vnull ≠
      Except.error e) :=
  ⟨rfl, fun _ h => Except.noConfusion h⟩

/-- Claim C8 (amended).  For the ResultSetParser core
(src/lib/result-set-parser.js), SingleValueHandler.execute writes a
non-null extracted value to the parent under the property name and
returns the next column index; a null value raises a DataError when the
property is not optional, and writes nothing while still returning the
next column index when it is optional.  The legacy RSParser variant
(src/index.js) instead never raises on a null cell regardless of
optionality: it writes nothing and returns the next column index. -/
theorem c8_singleValue_behaviour (parent : WTarget) (propName : String)
    (extract : Val → Option Val) (i : Nat) (raw : Val) (s : PState) :
    (∀ v, extract raw = some v →
      ∀ noNulls, execSingleValue parent propName extract noNulls i raw s =
        Except.ok (i + 1, writeTarget s parent propName (RVal.scalar v))) ∧
    (extract raw = none →
      execSingleValue parent propName extract true i raw s =
        Except.error (PErr.dataError i
          ("unexpected NULL for property " ++ propName ++
            " that is not optional."))) ∧
    (extract raw = none →
      execSingleValue parent propName extract false i raw s =
        Except.ok (i + 1, s)) ∧
    (∀ v, extract raw = some v →
      rsparserSingleValueExec i propName extract raw =
        Except.ok (i + 1, some (propName, v))) ∧
    (extract raw = none →
      rsparserSingleValueExec i propName extract raw =
        Except.ok (i + 1, none)) := by
  refine ⟨?_, ?_, ?_, ?_, ?_⟩
  · intro v hv noNulls
    simp [execSingleValue, hv]
  · intro hn
    simp [execSingleValue, hn]
  · intro hn
    simp [execSingleValue, hn]
  · intro v hv
    simp [rsparserSingleValueExec, hv]
  · intro hn
    simp [rsparserSingleValueExec, hn]

/-- Witness for C8 at concrete inputs: a string cell is written and the
cursor advances; a null cell for the non-optional case errors in the
core variant and passes silently in the legacy variant. -/
theorem c8_witness :
    (extractValue (Val.vstr "A") = some (Val.vstr "A") →
      execSingleValue (WTarget.topRec []) "firstName" extractValue false 1
        (Val.vstr "A") (mkInitState { handlers := [] } 0) =
      Except.ok (2, writeTarget (mkInitState { handlers := [] } 0)
        (WTarget.topRec []) "firstName" (RVal.scalar (Val.vstr "A")))) ∧
    (extractValue Val.vnull = none →
      execSingleValue (WTarget.topRec []) "firstName" extractValue true 1
        Val.vnull (mkInitState { handlers := [] } 0) =
      Except.error (PErr.dataError 1
        ("unexpected NULL for property " ++ "firstName" ++
          " that is not optional."))) ∧
    (extractValue Val.vnull = none →
      execSingleValue (WTarget.topRec []) "firstName" extractValue false 1
        Val.vnull (mkInitState { handlers := [] } 0) =
      Except.ok (2, mkInitState { handlers := [] } 0)) ∧
    (extractValue Val.vnull = none →
      rsparserSingleValueExec 1 "firstName" extractValue Val.vnull =
        Except.ok (2, none)) :=
  ⟨fun h => (c8_singleValue_behaviour (WTarget.topRec []) "firstName"
      extractValue 1 (Val.vstr "A") (mkInitState { handlers := [] } 0)).1
      (Val.vstr "A") h false,
   fun h => (c8_singleValue_behaviour (WTarget.topRec []) "firstName"
      extractValue 1 Val.vnull (mkInitState { handlers := [] } 0)).2.1 h,
   fun h => (c8_singleValue_behaviour (WTarget.topRec []) "firstName"
      extractValue 1 Val.vnull (mkInitState { handlers := [] } 0)).2.2.1 h,
   fun h => (c8_singleValue_behaviour (WTarget.topRec []) "firstName"
      extractValue 1 Val.vnull (mkInitState { handlers := [] } 0)).2.2.2.2 h⟩

/-! Claim C2: referred-record span bookkeeping and row skipping. -/

/-- Supporting: when the skip counter holds n, feeding the next n rows
only counts and decrements — the accumulators, the bookkeeping, the
fetching references and every handler state are left untouched, and no
column handler runs. -/
theorem feedAll_skips_rows (pc : PCfg) :
    ∀ (rows : List (List Val)) (s : PState) (n : Nat),
      s.skipNextNRows = Int.ofNat n → rows.length = n →
      feedAll pc s rows = Except.ok { s with skipNextNRows := 0, rowsProcessed := s.rowsProcessed + n } := by
  intro rows
  induction rows with
  | nil =>
    intro s n hskip hlen
    have hn : n = 0 := by simpa using hlen.symm
    subst hn
    simp only [feedAll]
    congr 1
    cases s
    simp_all
  | cons row rest ih =>
    intro s n hskip hlen
    cases n with
    | zero => simp at hlen
    | succ m =>
      have hlen' : rest.length = m := by simpa using hlen
      have hpos : ({ s with rowsProcessed := s.rowsProcessed + 1 } : PState).skipNextNRows > 0 := by
        simp [hskip, Int.ofNat_eq_coe]
      simp only [feedAll, feedRow, if_pos hpos]
      have hstep :
          ({ { s with rowsProcessed := s.rowsProcessed + 1 } with
              skipNextNRows :=
                ({ s with rowsProcessed := s.rowsProcessed + 1 } : PState).skipNextNRows - 1 } :
            PState).skipNextNRows = Int.ofNat m := by
        simp [hskip, Int.ofNat_eq_coe]
      rw [ih _ m hstep hlen']
      congr 1
      cases s
      simp_all
      omega

/-- Claim C2.  For a fetched referred record tracked under a
(reference value, column index) key: the first sighting (row skipping
requested) stores the current rowsProcessed under the key and reports
the record as fresh; endReferredRecord replaces the stored value with
the delta of rows consumed; a later sighting of the same key sets
skipNextNRows to the stored delta minus one and reports the record as
already materialized; and feedRow then consumes that many following
rows, counting them but executing no column handler. -/
theorem c2_referred_record_bookkeeping (s : PState) (refVal : String)
    (colInd : Nat)
    (hkey : assocGet s.referredRecordsNRows
      (refVal ++ ":" ++ toString colInd) = none) :
    ((beginReferredRecord s refVal colInd false).1 = false ∧
     assocGet (beginReferredRecord s refVal colInd false).2.referredRecordsNRows
       (refVal ++ ":" ++ toString colInd) = some (Int.ofNat s.rowsProcessed)) ∧
    (∀ (s' : PState) (r0 : Int),
      assocGet s'.fetchingRefs colInd = some refVal →
      assocGet s'.referredRecordsNRows (refVal ++ ":" ++ toString colInd) =
        some r0 →
      assocGet (endReferredRecord s' colInd false).referredRecordsNRows
        (refVal ++ ":" ++ toString colInd) =
        some (Int.ofNat s'.rowsProcessed - r0)) ∧
    (∀ (s'' : PState) (d : Int) (ns : Bool),
      assocGet s''.referredRecordsNRows (refVal ++ ":" ++ toString colInd) =
        some d →
      beginReferredRecord s'' refVal colInd ns =
        (true, { s'' with skipNextNRows := d - 1 })) ∧
    (∀ (pc : PCfg) (s3 : PState) (rows : List (List Val)) (n : Nat),
      s3.skipNextNRows = Int.ofNat n → rows.length = n →
      feedAll pc s3 rows = Except.ok { s3 with skipNextNRows := 0, rowsProcessed := s3.rowsProcessed + n }) := by
  refine ⟨?_, ?_, ?_, ?_⟩
  · simp only [beginReferredRecord]
    rw [hkey]
    cases hr : assocGet s.referredRecords refVal <;>
      simp [assocGet_assocSet_self]
  · intro s' r0 hfetch hstored
    simp [endReferredRecord, hfetch, hstored, assocGet_assocSet_self]
  · intro s'' d ns hstored
    simp only [beginReferredRecord]
    rw [hstored]
  · intro pc s3 rows n hskip hlen
    exact feedAll_skips_rows pc rows s3 n hskip hlen

/-- Witness for C2 over a concrete first sighting, span replacement,
second sighting and two skipped rows of an empty-markup parser. -/
theorem c2_witness :
    (assocGet (⟨[], [], [], 0, 0, [], [], 0⟩ : PState).referredRecordsNRows
      ("Location#25" ++ ":" ++ toString 1) = none) ∧
    ((beginReferredRecord (⟨[], [], [], 0, 0, [], [], 0⟩ : PState)
        "Location#25" 1 false).1 = false ∧
     assocGet (beginReferredRecord (⟨[], [], [], 0, 0, [], [], 0⟩ : PState)
        "Location#25" 1 false).2.referredRecordsNRows
       ("Location#25" ++ ":" ++ toString 1) = some (Int.ofNat 0)) ∧
    (assocGet (endReferredRecord
        (⟨[], [], [("Location#25:1", 1)], 0, 3, [(1, "Location#25")], [], 0⟩ : PState)
        1 false).referredRecordsNRows
      ("Location#25" ++ ":" ++ toString 1) = some (Int.ofNat 3 - 1)) ∧
    (beginReferredRecord
        (⟨[], [], [("Location#25:1", 3)], 0, 4, [], [], 0⟩ : PState)
        "Location#25" 1 false =
      (true, (⟨[], [], [("Location#25:1", 3)], (3 : Int) - 1, 4, [], [], 0⟩ : PState))) ∧
    (feedAll { handlers := [] }
        (⟨[], [], [], Int.ofNat 2, 5, [], [], 0⟩ : PState) [[], []] =
      Except.ok (⟨[], [], [], 0, 5 + 2, [], [], 0⟩ : PState)) := by
  have h := c2_referred_record_bookkeeping
    (⟨[], [], [], 0, 0, [], [], 0⟩ : PState) "Location#25" 1 rfl
  refine ⟨rfl, h.1, ?_, ?_, ?_⟩
  · exact h.2.1
      (⟨[], [], [("Location#25:1", 1)], 0, 3, [(1, "Location#25")], [], 0⟩ : PState)
      1 rfl rfl
  · exact h.2.2.1
      (⟨[], [], [("Location#25:1", 3)], 0, 4, [], [], 0⟩ : PState) 3 false rfl
  · exact h.2.2.2 { handlers := [] }
      (⟨[], [], [], Int.ofNat 2, 5, [], [], 0⟩ : PState) [[], []] 2 rfl rfl

/-! Field-preservation lemmas: a parent-handler write only touches the
records or referredRecords accumulator. -/

@[simp] theorem writeTarget_referredRecordsNRows (s : PState) (t : WTarget)
    (n : String) (v : RVal) :
    (writeTarget s t n v).referredRecordsNRows = s.referredRecordsNRows := by
  cases t with
  | topRec p => rfl
  | referred c p =>
    simp only [writeTarget]
    cases assocGet s.fetchingRefs c <;> rfl

@[simp] theorem writeTarget_skipNextNRows (s : PState) (t : WTarget)
    (n : String) (v : RVal) :
    (writeTarget s t n v).skipNextNRows = s.skipNextNRows := by
  cases t with
  | topRec p => rfl
  | referred c p =>
    simp only [writeTarget]
    cases assocGet s.fetchingRefs c <;> rfl

@[simp] theorem writeTarget_rowsProcessed (s : PState) (t : WTarget)
    (n : String) (v : RVal) :
    (writeTarget s t n v).rowsProcessed = s.rowsProcessed := by
  cases t with
  | topRec p => rfl
  | referred c p =>
    simp only [writeTarget]
    cases assocGet s.fetchingRefs c <;> rfl

@[simp] theorem writeTarget_hstates (s : PState) (t : WTarget)
    (n : String) (v : RVal) :
    (writeTarget s t n v).hstates = s.hstates := by
  cases t with
  | topRec p => rfl
  | referred c p =>
    simp only [writeTarget]
    cases assocGet s.fetchingRefs c <;> rfl

@[simp] theorem writeTarget_fetchingRefs (s : PState) (t : WTarget)
    (n : String) (v : RVal) :
    (writeTarget s t n v).fetchingRefs = s.fetchingRefs := by
  cases t with
  | topRec p => rfl
  | referred c p =>
    simp only [writeTarget]
    cases assocGet s.fetchingRefs c <;> rfl

@[simp] theorem writeTarget_instanceTag (s : PState) (t : WTarget)
    (n : String) (v : RVal) :
    (writeTarget s t n v).instanceTag = s.instanceTag := by
  cases t with
  | topRec p => rfl
  | referred c p =>
    simp only [writeTarget]
    cases assocGet s.fetchingRefs c <;> rfl

@[simp] theorem appendTarget_referredRecordsNRows (s : PState) (t : WTarget)
    (n : String) (v : RVal) :
    (appendTarget s t n v).referredRecordsNRows = s.referredRecordsNRows := by
  cases t with
  | topRec p => rfl
  | referred c p =>
    simp only [appendTarget]
    cases assocGet s.fetchingRefs c <;> rfl

@[simp] theorem appendTarget_skipNextNRows (s : PState) (t : WTarget)
    (n : String) (v : RVal) :
    (appendTarget s t n v).skipNextNRows = s.skipNextNRows := by
  cases t with
  | topRec p => rfl
  | referred c p =>
    simp only [appendTarget]
    cases assocGet s.fetchingRefs c <;> rfl

@[simp] theorem appendTarget_rowsProcessed (s : PState) (t : WTarget)
    (n : String) (v : RVal) :
    (appendTarget s t n v).rowsProcessed = s.rowsProcessed := by
  cases t with
  | topRec p => rfl
  | referred c p =>
    simp only [appendTarget]
    cases assocGet s.fetchingRefs c <;> rfl

@[simp] theorem appendTarget_hstates (s : PState) (t : WTarget)
    (n : String) (v : RVal) :
    (appendTarget s t n v).hstates = s.hstates := by
  cases t with
  | topRec p => rfl
  | referred c p =>
    simp only [appendTarget]
    cases assocGet s.fetchingRefs c <;> rfl

@[simp] theorem appendTarget_fetchingRefs (s : PState) (t : WTarget)
    (n : String) (v : RVal) :
    (appendTarget s t n v).fetchingRefs = s.fetchingRefs := by
  cases t with
  | topRec p => rfl
  | referred c p =>
    simp only [appendTarget]
    cases assocGet s.fetchingRefs c <;> rfl

@[simp] theorem appendTarget_instanceTag (s : PState) (t : WTarget)
    (n : String) (v : RVal) :
    (appendTarget s t n v).instanceTag = s.instanceTag := by
  cases t with
  | topRec p => rfl
  | referred c p =>
    simp only [appendTarget]
    cases assocGet s.fetchingRefs c <;> rfl

/-! Claim C3: noSkip marking on the first sighting of a fetched
reference. -/

/-- Claim C3 counterexample.  Concrete markup model of
["id", "locationRef:"], two columns: the fetched reference at column 1
has nextColInd 2 equal to the column count, so no columns follow its
(empty) subtree — the claim then requires the reference to be marked
noSkip and exempted from the row-skip bookkeeping.  Executing the
handler on a non-null id shows the opposite: the cached noSkip flag is
false and the starting rowsProcessed is recorded under the
(reference value, column index) key. -/
theorem c3_counterexample :
    execSingleFetchedRef
      { handlers := [HandlerCfg.topId "id" extractValue (-1),
          HandlerCfg.singleFetchedRef 0 (WTarget.topRec []) "locationRef"
            "Location" extractValue false false 2] }
      0 (WTarget.topRec []) "locationRef" "Location" extractValue false false 2
      1 (Val.vnum 25)
      (mkInitState
        { handlers := [HandlerCfg.topId "id" extractValue (-1),
            HandlerCfg.singleFetchedRef 0 (WTarget.topRec []) "locationRef"
              "Location" extractValue false false 2] } 0) =
      Except.ok (2,
        (⟨[], [("Location#25", RVal.obj [])], [("Location#25:1", Int.ofNat 0)],
          0, 0, [(1, "Location#25")],
          [HState.topIdSt none, HState.fetchedSt true false], 0⟩ : PState)) ∧
    ¬ ((HState.fetchedSt true false) = (HState.fetchedSt true true)) ∧
    ({ handlers := [HandlerCfg.topId "id" extractValue (-1),
        HandlerCfg.singleFetchedRef 0 (WTarget.topRec []) "locationRef"
          "Location" extractValue false false 2] } : PCfg).numColumns = 2 :=
  ⟨rfl, by decide, rfl⟩

/-- Claim C3 (amended).  On the first sighting of a fetched single
reference (non-null id, key not yet tracked), execute caches the noSkip
flag as true exactly when columns follow the fetched reference's subtree
in the markup (nextColInd < number of columns) — not when the reference
has no downstream columns, as the claim stated — and records the
starting rowsProcessed under the (reference value, column index) key
exactly when the flag is false; references with a false flag thereby
participate in the row-skip bookkeeping, and execute descends into the
referred record columns. -/
theorem c3_fetched_ref_first_sighting (pc : PCfg) (anchorIdx : Nat)
    (parent : WTarget) (propName refTargetName : String)
    (extract : Val → Option Val) (noNulls isLastSub : Bool)
    (nextColInd i : Nat) (raw : Val) (s : PState) (rid : Val) (hasObj : Bool)
    (hstate : s.hstates.get? i = some (HState.fetchedSt hasObj false))
    (hextract : extract raw = some rid)
    (hkey : assocGet s.referredRecordsNRows
      ((refTargetName ++ "#" ++ valToString rid) ++ ":" ++ toString i) = none) :
    ∃ s3, execSingleFetchedRef pc anchorIdx parent propName refTargetName
        extract noNulls isLastSub nextColInd i raw s = Except.ok (i + 1, s3) ∧
      s3.hstates.get? i =
        some (HState.fetchedSt true (decide (nextColInd < pc.numColumns))) ∧
      (decide (nextColInd < pc.numColumns) = false →
        assocGet s3.referredRecordsNRows
          ((refTargetName ++ "#" ++ valToString rid) ++ ":" ++ toString i) =
          some (Int.ofNat s.rowsProcessed)) ∧
      (decide (nextColInd < pc.numColumns) = true →
        assocGet s3.referredRecordsNRows
          ((refTargetName ++ "#" ++ valToString rid) ++ ":" ++ toString i) =
          none) := by
  have hlen : i < s.hstates.length := by
    by_contra hge
    rw [List.get?_eq_none.mpr (Nat.le_of_not_lt hge)] at hstate
    exact Option.noConfusion hstate
  simp only [execSingleFetchedRef]
  rw [hstate, hextract]
  simp only [beginReferredRecord, writeTarget_referredRecordsNRows,
    writeTarget_rowsProcessed, writeTarget_hstates, writeTarget_fetchingRefs]
  rw [hkey]
  cases hr : assocGet
      ((writeTarget s parent propName
        (RVal.scalar (Val.vstr (refTargetName ++ "#" ++ valToString rid)))).referredRecords)
      (refTargetName ++ "#" ++ valToString rid) with
  | none =>
    refine ⟨_, rfl, ?_, ?_, ?_⟩ <;>
      cases hd : decide (nextColInd < pc.numColumns) <;>
        simp_all [setHState, assocGet_assocSet_self, listGet_set_self]
  | some r0 =>
    refine ⟨_, rfl, ?_, ?_, ?_⟩ <;>
      cases hd : decide (nextColInd < pc.numColumns) <;>
        simp_all [setHState, assocGet_assocSet_self, listGet_set_self]

/-- Witness for C3 at a concrete three-column markup model
["id", "locationRef:", "name"]: the fetched reference's subtree is
followed by one more column, so the noSkip flag caches true and nothing
is recorded under the key. -/
theorem c3_witness :
    ((mkInitState
        { handlers := [HandlerCfg.topId "id" extractValue (-1),
            HandlerCfg.singleFetchedRef 0 (WTarget.topRec []) "locationRef"
              "Location" extractValue false false 2,
            HandlerCfg.singleValue (WTarget.topRec []) "name" extractValue
              false] } 0).hstates.get? 1 =
      some (HState.fetchedSt false false)) ∧
    (extractValue (Val.vnum 25) = some (Val.vnum 25)) ∧
    (assocGet (mkInitState
        { handlers := [HandlerCfg.topId "id" extractValue (-1),
            HandlerCfg.singleFetchedRef 0 (WTarget.topRec []) "locationRef"
              "Location" extractValue false false 2,
            HandlerCfg.singleValue (WTarget.topRec []) "name" extractValue
              false] } 0).referredRecordsNRows
      (("Location" ++ "#" ++ valToString (Val.vnum 25)) ++ ":" ++ toString 1) =
      none) ∧
    (∃ s3, execSingleFetchedRef
        { handlers := [HandlerCfg.topId "id" extractValue (-1),
            HandlerCfg.singleFetchedRef 0 (WTarget.topRec []) "locationRef"
              "Location" extractValue false false 2,
            HandlerCfg.singleValue (WTarget.topRec []) "name" extractValue
              false] }
        0 (WTarget.topRec []) "locationRef" "Location" extractValue false false
        2 1 (Val.vnum 25)
        (mkInitState
          { handlers := [HandlerCfg.topId "id" extractValue (-1),
              HandlerCfg.singleFetchedRef 0 (WTarget.topRec []) "locationRef"
                "Location" extractValue false false 2,
              HandlerCfg.singleValue (WTarget.topRec []) "name" extractValue
                false] } 0) = Except.ok (1 + 1, s3) ∧
      s3.hstates.get? 1 = some (HState.fetchedSt true (decide (2 <
        ({ handlers := [HandlerCfg.topId "id" extractValue (-1),
            HandlerCfg.singleFetchedRef 0 (WTarget.topRec []) "locationRef"
              "Location" extractValue false false 2,
            HandlerCfg.singleValue (WTarget.topRec []) "name" extractValue
              false] } : PCfg).numColumns))) ∧
      (decide (2 < ({ handlers := [HandlerCfg.topId "id" extractValue (-1),
          HandlerCfg.singleFetchedRef 0 (WTarget.topRec []) "locationRef"
            "Location" extractValue false false 2,
          HandlerCfg.singleValue (WTarget.topRec []) "name" extractValue
            false] } : PCfg).numColumns) = false →
        assocGet s3.referredRecordsNRows
          (("Location" ++ "#" ++ valToString (Val.vnum 25)) ++ ":" ++
            toString 1) = some (Int.ofNat 0)) ∧
      (decide (2 < ({ handlers := [HandlerCfg.topId "id" extractValue (-1),
          HandlerCfg.singleFetchedRef 0 (WTarget.topRec []) "locationRef"
            "Location" extractValue false false 2,
          HandlerCfg.singleValue (WTarget.topRec []) "name" extractValue
            false] } : PCfg).numColumns) = true →
        assocGet s3.referredRecordsNRows
          (("Location" ++ "#" ++ valToString (Val.vnum 25)) ++ ":" ++
            toString 1) = none)) :=
  ⟨rfl, rfl, rfl,
   c3_fetched_ref_first_sighting
     { handlers := [HandlerCfg.topId "id" extractValue (-1),
         HandlerCfg.singleFetchedRef 0 (WTarget.topRec []) "locationRef"
           "Location" extractValue false false 2,
         HandlerCfg.singleValue (WTarget.topRec []) "name" extractValue
           false] }
     0 (WTarget.topRec []) "locationRef" "Location" extractValue false false 2
     1 (Val.vnum 25)
     (mkInitState
       { handlers := [HandlerCfg.topId "id" extractValue (-1),
           HandlerCfg.singleFetchedRef 0 (WTarget.topRec []) "locationRef"
             "Location" extractValue false false 2,
           HandlerCfg.singleValue (WTarget.topRec []) "name" extractValue
             false] } 0)
     (Val.vnum 25) false rfl rfl rfl⟩

/-! Claim C4: nested-object array anchor case analysis. -/

/-- Claim C4 counterexample.  The claim states that a null anchor cell
seen first marks the subtree absent and fast-forwards to the end of the
row.  For a non-optional array property (noNulls true), the handler
instead raises the not-optional DataError on a first-time null anchor:
here a two-column model with the anchor at column 1, fresh state, null
cell. -/
theorem c4_counterexample :
    execObjectArrayAnchor
      { handlers := [HandlerCfg.topId "id" extractValue 1,
          HandlerCfg.objectArrayAnchor (WTarget.topRec []) "addresses" true
            true (-1)] }
      (WTarget.topRec []) "addresses" true true (-1) 1 Val.vnull
      (mkInitState
        { handlers := [HandlerCfg.topId "id" extractValue 1,
            HandlerCfg.objectArrayAnchor (WTarget.topRec []) "addresses" true
              true (-1)] } 0) =
      Except.error (PErr.dataError 1
        ("unexpected NULL for property " ++ "addresses" ++
          " that is not optional.")) ∧
    (∀ s' : PState, execObjectArrayAnchor
      { handlers := [HandlerCfg.topId "id" extractValue 1,
          HandlerCfg.objectArrayAnchor (WTarget.topRec []) "addresses" true
            true (-1)] }
      (WTarget.topRec []) "addresses" true true (-1) 1 Val.vnull
      (mkInitState
        { handlers := [HandlerCfg.topId "id" extractValue 1,
            HandlerCfg.objectArrayAnchor (WTarget.topRec []) "addresses" true
              true (-1)] } 0) ≠
      Except.ok (2, s')) :=
  ⟨rfl, fun _ h => Except.noConfusion h⟩

/-- Claim C4 (amended).  ObjectArrayAnchorHandler.execute, by cases on
the anchor cell and the last anchor value: a null cell after a null is
the repeated-NULL data error; a null cell in the middle of a collection
is the unexpected-NULL data error; a first-time null cell marks the
subtree absent and fast-forwards to the end of the row provided the
property is optional, and raises the not-optional data error otherwise;
a non-null cell after a null is the NULL-expected data error; a cell
equal to the last value requires a linked next anchor and transfers to
it, else raises the anchor-must-change data error; and a changed
non-null value allocates the array and binds it to the parent exactly
when it is the first element, records the new anchor value, resets all
downstream handlers, appends a fresh element object for simple nested
objects, and proceeds to the next column. -/
theorem c4_objectArrayAnchor_cases (pc : PCfg) (parent : WTarget)
    (propName : String) (isSimple noNulls : Bool) (nextAnchor : Int)
    (i : Nat) (raw : Val) (s : PState) (lastV : Option (Option Val))
    (hstate : s.hstates.get? i = some (HState.objArraySt lastV)) :
    (isNullVal raw = true → lastV = some none →
      execObjectArrayAnchor pc parent propName isSimple noNulls nextAnchor i
        raw s =
      Except.error (PErr.dataError i "repeated NULL in the anchor column.")) ∧
    (isNullVal raw = true → ∀ w, lastV = some (some w) →
      execObjectArrayAnchor pc parent propName isSimple noNulls nextAnchor i
        raw s =
      Except.error (PErr.dataError i "unexpected NULL in the anchor column.")) ∧
    (isNullVal raw = true → lastV = none → noNulls = false →
      execObjectArrayAnchor pc parent propName isSimple noNulls nextAnchor i
        raw s =
      Except.ok (pc.numColumns,
        setHState s i (HState.objArraySt (some none)))) ∧
    (isNullVal raw = true → lastV = none → noNulls = true →
      execObjectArrayAnchor pc parent propName isSimple noNulls nextAnchor i
        raw s =
      Except.error (PErr.dataError i
        ("unexpected NULL for property " ++ propName ++
          " that is not optional."))) ∧
    (isNullVal raw = false → lastV = some none →
      execObjectArrayAnchor pc parent propName isSimple noNulls nextAnchor i
        raw s =
      Except.error (PErr.dataError i "NULL expected in the anchor column.")) ∧
    (isNullVal raw = false → lastV = some (some raw) →
      (nextAnchor < 0 →
        execObjectArrayAnchor pc parent propName isSimple noNulls nextAnchor i
          raw s =
        Except.error
          (PErr.dataError i "at least one anchor must change in each row.")) ∧
      (0 ≤ nextAnchor →
        execObjectArrayAnchor pc parent propName isSimple noNulls nextAnchor i
          raw s = Except.ok (nextAnchor.toNat, s))) ∧
    (isNullVal raw = false → lastV ≠ some none → lastV ≠ some (some raw) →
      execObjectArrayAnchor pc parent propName isSimple noNulls nextAnchor i
        raw s =
      Except.ok (i + 1,
        if isSimple then
          appendTarget
            (resetChain pc
              (setHState
                (if lastV = none then
                  writeTarget s parent propName (RVal.arr [])
                else s)
                i (HState.objArraySt (some (some raw)))) i)
            parent propName (RVal.obj [])
        else
          resetChain pc
            (setHState
              (if lastV = none then
                writeTarget s parent propName (RVal.arr [])
              else s)
              i (HState.objArraySt (some (some raw)))) i)) := by
  refine ⟨?_, ?_, ?_, ?_, ?_, ?_, ?_⟩
  · intro h1 h2
    simp only [execObjectArrayAnchor]
    rw [hstate]
    simp [h1, h2]
  · intro h1 w h2
    simp only [execObjectArrayAnchor]
    rw [hstate]
    simp [h1, h2]
  · intro h1 h2 h3
    simp only [execObjectArrayAnchor]
    rw [hstate]
    simp [h1, h2, h3]
  · intro h1 h2 h3
    simp only [execObjectArrayAnchor]
    rw [hstate]
    simp [h1, h2, h3]
  · intro h1 h2
    simp only [execObjectArrayAnchor]
    rw [hstate]
    simp [h1, h2]
  · intro h1 h2
    constructor
    · intro hlt
      simp only [execObjectArrayAnchor]
      rw [hstate]
      simp [h1, h2, hlt]
    · intro hge
      simp only [execObjectArrayAnchor]
      rw [hstate]
      simp [h1, h2, Int.not_lt.mpr hge]
  · intro h1 h2 h3
    simp only [execObjectArrayAnchor]
    rw [hstate]
    cases lastV with
    | none =>
      simp [h1]
    | some ov =>
      cases ov with
      | none => exact absurd rfl h2
      | some w =>
        simp [h1, h3]

/-- Markup model for the C4 witness: ["id", "addresses"] with an
optional nested-object array anchored at column 1. -/
def c4WitnessCfg : PCfg :=
  { handlers := [HandlerCfg.topId "id" extractValue 1,
      HandlerCfg.objectArrayAnchor (WTarget.topRec []) "addresses" true false
        (-1)] }

/-- Freshly initialized parser state for the C4 witness. -/
def c4WitnessState : PState := mkInitState c4WitnessCfg 0

/-- Witness for C4: on a fresh anchor state, a changed non-null anchor
value allocates the array, records the value, resets the downstream
handlers, appends the element object and proceeds to column 2. -/
theorem c4_witness :
    (c4WitnessState.hstates.get? 1 = some (HState.objArraySt none)) ∧
    (isNullVal (Val.vnum 7) = false) ∧
    execObjectArrayAnchor c4WitnessCfg (WTarget.topRec []) "addresses" true
      false (-1) 1 (Val.vnum 7) c4WitnessState =
    Except.ok (1 + 1,
      if true then
        appendTarget
          (resetChain c4WitnessCfg
            (setHState
              (if (none : Option (Option Val)) = none then
                writeTarget c4WitnessState (WTarget.topRec []) "addresses"
                  (RVal.arr [])
              else c4WitnessState)
              1 (HState.objArraySt (some (some (Val.vnum 7))))) 1)
          (WTarget.topRec []) "addresses" (RVal.obj [])
      else
        resetChain c4WitnessCfg
          (setHState
            (if (none : Option (Option Val)) = none then
              writeTarget c4WitnessState (WTarget.topRec []) "addresses"
                (RVal.arr [])
            else c4WitnessState)
            1 (HState.objArraySt (some (some (Val.vnum 7))))) 1) :=
  ⟨rfl, rfl,
   (c4_objectArrayAnchor_cases c4WitnessCfg (WTarget.topRec []) "addresses"
     true false (-1) 1 (Val.vnum 7) c4WitnessState none
     rfl).2.2.2.2.2.2 rfl (by decide) (by decide)⟩

/-! Claim C7: reset is neutral on a freshly initialized parser. -/

/-- Resetting any single handler of a freshly initialized parser is the
identity: every handler class's reset restores exactly its
post-constructor state, and the fetched-reference handler holds no
current referred record, so no bookkeeping side effect fires. -/
theorem resetH_mkInitState (pc : PCfg) (tag : Nat) (i : Nat) :
    resetH pc (mkInitState pc tag) i = mkInitState pc tag := by
  have hs : (mkInitState pc tag).hstates.get? i =
      (pc.handlers.get? i).map initHState := by
    simp only [mkInitState]
    exact listGet_map initHState pc.handlers i
  cases hc : pc.handlers.get? i with
  | none =>
    simp only [resetH]
    rw [hc]
  | some cfg =>
    rw [hc] at hs
    have heta : ∀ st : HState, initHState cfg = st →
        setHState (mkInitState pc tag) i st = mkInitState pc tag := by
      intro st hst
      simp only [setHState]
      rw [listSet_get_self _ i st (by rw [hs]; simp [hst])]
    cases cfg with
    | topId pn ex na =>
      simp only [resetH]
      rw [hc]
      exact heta _ rfl
    | singleValue pa pn ex nn =>
      simp only [resetH]
      rw [hc]
    | singleObject ai pa pn nn nc =>
      simp only [resetH]
      rw [hc]
      exact heta _ rfl
    | singleRef pa pn rt ex nn il =>
      simp only [resetH]
      rw [hc]
    | objectArrayAnchor pa pn si nn na =>
      simp only [resetH]
      rw [hc]
      exact heta _ rfl
    | arraySingleRowAnchor pa pn nn na =>
      simp only [resetH]
      rw [hc]
      exact heta _ rfl
    | singleRowValue ai ex =>
      simp only [resetH]
      rw [hc]
    | singleFetchedRef ai pa pn rt ex nn il nc =>
      simp only [resetH]
      rw [hc, hs]
      exact heta _ rfl

/-- Resetting any range of handlers of a freshly initialized parser is
the identity. -/
theorem resetRange_mkInitState (pc : PCfg) (tag : Nat) :
    ∀ idxs : List Nat,
      resetRange pc (mkInitState pc tag) idxs = mkInitState pc tag := by
  intro idxs
  induction idxs with
  | nil => rfl
  | cons i rest ih =>
    simp only [resetRange, List.foldl]
    rw [resetH_mkInitState]
    exact ih

/-- ResultSetParser.reset applied right after init is the identity on
the parser state. -/
theorem parserReset_mkInitState (pc : PCfg) (tag : Nat) :
    parserReset pc (mkInitState pc tag) = mkInitState pc tag := by
  simp only [parserReset]
  exact resetRange_mkInitState pc tag _

/-- Claim C7.  Calling reset() immediately after init and then feeding
any row sequence yields exactly the same parser state — in particular
the same records and referredRecords — as feeding the rows without the
intervening reset: reset is neutral on a freshly initialized parser. -/
theorem c7_reset_after_init_neutral (pc : PCfg) (tag : Nat)
    (rows : List (List Val)) :
    parserReset pc (mkInitState pc tag) = mkInitState pc tag ∧
    feedAll pc (parserReset pc (mkInitState pc tag)) rows =
      feedAll pc (mkInitState pc tag) rows := by
  have h := parserReset_mkInitState pc tag
  exact ⟨h, by rw [h]⟩

/-! Claim C10: the parser output is a deterministic function of its
constructor inputs, the markup and the fed rows.  The model makes every
piece of parser state explicit; the only remaining per-instance datum is
the object identity, modelled by the instanceTag field.  The lemmas
below show that every operation of the row walk commutes with retagging,
so two independently constructed instances given equal inputs produce
equal outputs. -/

/-- Retag a parser state: the same state held by another parser object. -/
def setTag (t : Nat) (s : PState) : PState := { s with instanceTag := t }

theorem writeTarget_setTag (t : Nat) (s : PState) (tg : WTarget) (n : String)
    (v : RVal) :
    writeTarget (setTag t s) tg n v = setTag t (writeTarget s tg n v) := by
  cases tg with
  | topRec p => rfl
  | referred c p =>
    cases hyp : assocGet s.fetchingRefs c <;> simp [writeTarget, setTag, hyp]

theorem appendTarget_setTag (t : Nat) (s : PState) (tg : WTarget) (n : String)
    (v : RVal) :
    appendTarget (setTag t s) tg n v = setTag t (appendTarget s tg n v) := by
  cases tg with
  | topRec p => rfl
  | referred c p =>
    cases hyp : assocGet s.fetchingRefs c <;> simp [appendTarget, setTag, hyp]

theorem addNewRecord_setTag (t : Nat) (s : PState) :
    addNewRecord (setTag t s) = setTag t (addNewRecord s) := rfl

theorem setHState_setTag (t : Nat) (s : PState) (i : Nat) (st : HState) :
    setHState (setTag t s) i st = setTag t (setHState s i st) := rfl

theorem readTarget_setTag (t : Nat) (s : PState) (tg : WTarget) (n : String) :
    readTarget (setTag t s) tg n = readTarget s tg n := rfl

theorem beginReferredRecord_setTag (t : Nat) (s : PState) (refVal : String)
    (colInd : Nat) (noSkip : Bool) :
    beginReferredRecord (setTag t s) refVal colInd noSkip =
      ((beginReferredRecord s refVal colInd noSkip).1,
        setTag t (beginReferredRecord s refVal colInd noSkip).2) := by
  simp only [beginReferredRecord]
  cases h1 : assocGet s.referredRecordsNRows (refVal ++ ":" ++ toString colInd) <;>
    cases h2 : assocGet s.referredRecords refVal <;>
      cases noSkip <;> simp [setTag, h1, h2]

theorem endReferredRecord_setTag (t : Nat) (s : PState) (colInd : Nat)
    (noSkip : Bool) :
    endReferredRecord (setTag t s) colInd noSkip =
      setTag t (endReferredRecord s colInd noSkip) := by
  cases noSkip with
  | true => rfl
  | false =>
    simp only [endReferredRecord]
    cases h1 : assocGet s.fetchingRefs colInd with
    | none => simp [setTag, h1]
    | some refVal =>
      cases h2 : assocGet s.referredRecordsNRows
          (refVal ++ ":" ++ toString colInd) <;> simp [setTag, h1, h2]

theorem setTag_hstates (t : Nat) (s : PState) :
    (setTag t s).hstates = s.hstates := rfl

theorem resetH_setTag (pc : PCfg) (t : Nat) (s : PState) (i : Nat) :
    resetH pc (setTag t s) i = setTag t (resetH pc s i) := by
  simp only [resetH, setTag_hstates]
  cases hc : pc.handlers.get? i with
  | none => rfl
  | some cfg =>
    cases cfg with
    | topId pn ex na => rfl
    | singleValue pa pn ex nn => rfl
    | singleObject ai pa pn nn nc => rfl
    | singleRef pa pn rt ex nn il => rfl
    | objectArrayAnchor pa pn si nn na => rfl
    | arraySingleRowAnchor pa pn nn na => rfl
    | singleRowValue ai ex => rfl
    | singleFetchedRef ai pa pn rt ex nn il nc =>
      cases hs : s.hstates.get? i with
      | none => rfl
      | some st =>
        cases st with
        | topIdSt l => rfl
        | inertSt => rfl
        | singleObjectSt b => rfl
        | objArraySt l => rfl
        | arr1St b => rfl
        | fetchedSt hobj ns =>
          cases hobj with
          | false => rfl
          | true =>
            dsimp only
            rw [endReferredRecord_setTag]
            rfl

theorem resetRange_setTag (pc : PCfg) (t : Nat) :
    ∀ (idxs : List Nat) (s : PState),
      resetRange pc (setTag t s) idxs = setTag t (resetRange pc s idxs) := by
  intro idxs
  induction idxs with
  | nil => intro s; rfl
  | cons i rest ih =>
    intro s
    simp only [resetRange, List.foldl] at ih ⊢
    rw [resetH_setTag]
    exact ih _

theorem resetChain_setTag (pc : PCfg) (t : Nat) (s : PState)
    (anchorColInd : Nat) :
    resetChain pc (setTag t s) anchorColInd =
      setTag t (resetChain pc s anchorColInd) := by
  simp only [resetChain]
  exact resetRange_setTag pc t _ s

theorem emptyAt_setTag (pc : PCfg) :
    ∀ (fuel i upper : Nat) (t : Nat) (s : PState),
      emptyAt pc fuel i upper (setTag t s) =
        setTag t (emptyAt pc fuel i upper s) := by
  intro fuel
  induction fuel with
  | zero => intro i upper t s; rfl
  | succ f ih =>
    intro i upper t s
    simp only [emptyAt]
    cases hc : pc.handlers.get? i with
    | none => rfl
    | some cfg =>
      cases cfg with
      | topId pn ex na => rfl
      | singleValue pa pn ex nn => rfl
      | singleObject ai pa pn nn nc => rfl
      | singleRef pa pn rt ex nn il => rfl
      | objectArrayAnchor pa pn si nn na =>
        by_cases hcond : (0 : Int) < na ∧ na < (upper : Int)
        · simp only [if_pos hcond, setHState_setTag]
          exact ih _ _ _ _
        · simp only [if_neg hcond]
          rfl
      | arraySingleRowAnchor pa pn nn na => rfl
      | singleRowValue ai ex => rfl
      | singleFetchedRef ai pa pn rt ex nn il nc => rfl

theorem emptyChildAnchors_setTag (pc : PCfg) (i upper : Nat) (t : Nat)
    (s : PState) :
    emptyChildAnchors pc i upper (setTag t s) =
      setTag t (emptyChildAnchors pc i upper s) := by
  simp only [emptyChildAnchors]
  cases hc : pc.handlers.get? i with
  | none => rfl
  | some cfg =>
    by_cases hcond : 0 < anchorNext cfg ∧ anchorNext cfg < (upper : Int)
    · simp only [if_pos hcond]
      exact emptyAt_setTag pc _ _ _ _ _
    · simp only [if_neg hcond]

/-- Retag the state component of a cursor step result. -/
def tagStep (t : Nat) (q : Nat × PState) : Nat × PState := (q.1, setTag t q.2)

theorem execTopRecordId_setTag (pc : PCfg) (pn : String)
    (ex : Val → Option Val) (na : Int) (raw : Val) (t : Nat) (s : PState) :
    execTopRecordId pc pn ex na raw (setTag t s) =
      Except.map (tagStep t) (execTopRecordId pc pn ex na raw s) := by
  simp only [execTopRecordId, setTag_hstates]
  cases he : ex raw with
  | none => rfl
  | some v =>
    cases hs : s.hstates.get? 0 with
    | none => rfl
    | some st =>
      cases st with
      | inertSt => rfl
      | singleObjectSt b => rfl
      | objArraySt l => rfl
      | arr1St b => rfl
      | fetchedSt hobj ns => rfl
      | topIdSt l =>
        by_cases hl : l = some v
        · by_cases hna : na < 0
          · simp only [if_pos hl, if_pos hna]
            rfl
          · simp only [if_pos hl, if_neg hna]
            rfl
        · simp only [if_neg hl]
          try dsimp only
          rw [setHState_setTag, resetChain_setTag, addNewRecord_setTag,
            writeTarget_setTag]
          rfl

theorem execSingleValue_setTag (pa : WTarget) (pn : String)
    (ex : Val → Option Val) (nn : Bool) (i : Nat) (raw : Val) (t : Nat)
    (s : PState) :
    execSingleValue pa pn ex nn i raw (setTag t s) =
      Except.map (tagStep t) (execSingleValue pa pn ex nn i raw s) := by
  simp only [execSingleValue]
  cases he : ex raw with
  | none => cases nn <;> rfl
  | some v =>
    try dsimp only
    rw [writeTarget_setTag]
    rfl

theorem execSingleObject_setTag (pc : PCfg) (ai : Nat) (pa : WTarget)
    (pn : String) (nn : Bool) (nc : Nat) (i : Nat) (raw : Val) (t : Nat)
    (s : PState) :
    execSingleObject pc ai pa pn nn nc i raw (setTag t s) =
      Except.map (tagStep t) (execSingleObject pc ai pa pn nn nc i raw s) := by
  simp only [execSingleObject]
  cases hn : isNullVal raw with
  | true =>
    cases nn with
    | true => rfl
    | false =>
      try dsimp only
      rw [emptyChildAnchors_setTag]
      rfl
  | false =>
    try dsimp only
    rw [setHState_setTag, writeTarget_setTag]
    rfl

theorem execSingleRef_setTag (pa : WTarget) (pn rt : String)
    (ex : Val → Option Val) (nn il : Bool) (i : Nat) (raw : Val) (t : Nat)
    (s : PState) :
    execSingleRef pa pn rt ex nn il i raw (setTag t s) =
      Except.map (tagStep t) (execSingleRef pa pn rt ex nn il i raw s) := by
  simp only [execSingleRef]
  cases he : ex raw with
  | some rid =>
    try dsimp only
    rw [writeTarget_setTag]
    rfl
  | none =>
    cases nn with
    | true => rfl
    | false =>
      try dsimp only
      rw [readTarget_setTag]
      cases hcond : il && (readTarget s pa pn).isNone <;> rfl

theorem execObjectArrayAnchor_setTag (pc : PCfg) (pa : WTarget) (pn : String)
    (si nn : Bool) (na : Int) (i : Nat) (raw : Val) (t : Nat) (s : PState) :
    execObjectArrayAnchor pc pa pn si nn na i raw (setTag t s) =
      Except.map (tagStep t) (execObjectArrayAnchor pc pa pn si nn na i raw s) := by
  simp only [execObjectArrayAnchor, setTag_hstates]
  cases hs : s.hstates.get? i with
  | none => rfl
  | some st =>
    cases st with
    | topIdSt l => rfl
    | inertSt => rfl
    | singleObjectSt b => rfl
    | arr1St b => rfl
    | fetchedSt hobj ns => rfl
    | objArraySt lastV =>
      cases hn : isNullVal raw with
      | true =>
        cases lastV with
        | none =>
          cases nn with
          | true => rfl
          | false =>
            try dsimp only
            rw [setHState_setTag]
            rfl
        | some ov => cases ov <;> rfl
      | false =>
        cases lastV with
        | none =>
          try dsimp only
          have hs1 : (if (none : Option (Option Val)) = none then
                writeTarget (setTag t s) pa pn (RVal.arr [])
              else setTag t s) =
              setTag t (if (none : Option (Option Val)) = none then
                writeTarget s pa pn (RVal.arr []) else s) := by
            rw [if_pos rfl, if_pos rfl, writeTarget_setTag]
          rw [hs1]
          simp only [setHState_setTag, resetChain_setTag, appendTarget_setTag]
          cases si <;> rfl
        | some ov =>
          cases ov with
          | none => rfl
          | some w =>
            by_cases hw : (some (some w) : Option (Option Val)) = some (some raw)
            · by_cases hna : na < 0
              · simp only [if_pos hw, if_pos hna]
                rfl
              · simp only [if_pos hw, if_neg hna]
                rfl
            · simp only [if_neg hw]
              try dsimp only
              have hs1 : (if (some (some w) : Option (Option Val)) = none then
                    writeTarget (setTag t s) pa pn (RVal.arr [])
                  else setTag t s) =
                  setTag t (if (some (some w) : Option (Option Val)) = none then
                    writeTarget s pa pn (RVal.arr []) else s) := by
                rw [if_neg (by simp), if_neg (by simp)]
              rw [hs1]
              simp only [setHState_setTag, resetChain_setTag,
                appendTarget_setTag]
              cases si <;> rfl

theorem execArraySingleRowAnchor_setTag (pa : WTarget) (pn : String)
    (nn : Bool) (i : Nat) (raw : Val) (t : Nat) (s : PState) :
    execArraySingleRowAnchor pa pn nn i raw (setTag t s) =
      Except.map (tagStep t) (execArraySingleRowAnchor pa pn nn i raw s) := by
  simp only [execArraySingleRowAnchor, setTag_hstates]
  cases hs : s.hstates.get? i with
  | none => rfl
  | some st =>
    cases st with
    | topIdSt l => rfl
    | inertSt => rfl
    | singleObjectSt b => rfl
    | objArraySt l => rfl
    | fetchedSt hobj ns => rfl
    | arr1St anchored =>
      cases anchored with
      | true => cases hn : isNullVal raw <;> rfl
      | false =>
        cases hn : isNullVal raw with
        | true => cases nn <;> rfl
        | false =>
          try dsimp only
          rw [setHState_setTag, writeTarget_setTag]
          rfl

theorem execSingleRowValue_setTag (pc : PCfg) (ai : Nat)
    (ex : Val → Option Val) (i : Nat) (raw : Val) (t : Nat) (s : PState) :
    execSingleRowValue pc ai ex i raw (setTag t s) =
      Except.map (tagStep t) (execSingleRowValue pc ai ex i raw s) := by
  simp only [execSingleRowValue]
  cases hc : pc.handlers.get? ai with
  | none => rfl
  | some cfg =>
    cases cfg with
    | topId pn ex2 na => rfl
    | singleValue pa pn ex2 nn => rfl
    | singleObject ai2 pa pn nn nc => rfl
    | singleRef pa pn rt ex2 nn il => rfl
    | objectArrayAnchor pa pn si nn na => rfl
    | singleRowValue ai2 ex2 => rfl
    | singleFetchedRef ai2 pa pn rt ex2 nn il nc => rfl
    | arraySingleRowAnchor pa pn nn na =>
      try dsimp only
      rw [appendTarget_setTag]
      rfl

theorem execSingleFetchedRef_setTag (pc : PCfg) (ai : Nat) (pa : WTarget)
    (pn rt : String) (ex : Val → Option Val) (nn il : Bool) (nc : Nat)
    (i : Nat) (raw : Val) (t : Nat) (s : PState) :
    execSingleFetchedRef pc ai pa pn rt ex nn il nc i raw (setTag t s) =
      Except.map (tagStep t)
        (execSingleFetchedRef pc ai pa pn rt ex nn il nc i raw s) := by
  simp only [execSingleFetchedRef, setTag_hstates]
  cases hs : s.hstates.get? i with
  | none => rfl
  | some st =>
    cases st with
    | topIdSt l => rfl
    | inertSt => rfl
    | singleObjectSt b => rfl
    | objArraySt l => rfl
    | arr1St b => rfl
    | fetchedSt hobj ns0 =>
      cases he : ex raw with
      | none =>
        cases nn with
        | true => rfl
        | false =>
          try dsimp only
          rw [readTarget_setTag]
          cases hcond : il && (readTarget s pa pn).isNone with
          | true => rfl
          | false =>
            try dsimp only
            rw [emptyChildAnchors_setTag]
            rfl
      | some rid =>
        try dsimp only
        rw [writeTarget_setTag, beginReferredRecord_setTag]
        cases hb : (beginReferredRecord
            (writeTarget s pa pn
              (RVal.scalar (Val.vstr (rt ++ "#" ++ valToString rid)))) (rt ++ "#" ++ valToString rid) i
            (ns0 || decide (nc < pc.numColumns))).1 <;>
          · dsimp only
            rw [setHState_setTag]
            rfl

theorem execStep_setTag (pc : PCfg) (i : Nat) (raw : Val) (t : Nat)
    (s : PState) :
    execStep pc i raw (setTag t s) =
      Except.map (tagStep t) (execStep pc i raw s) := by
  simp only [execStep]
  cases hc : pc.handlers.get? i with
  | none => rfl
  | some cfg =>
    cases cfg with
    | topId pn ex na => exact execTopRecordId_setTag pc pn ex na raw t s
    | singleValue pa pn ex nn => exact execSingleValue_setTag pa pn ex nn i raw t s
    | singleObject ai pa pn nn nc =>
      exact execSingleObject_setTag pc ai pa pn nn nc i raw t s
    | singleRef pa pn rt ex nn il =>
      exact execSingleRef_setTag pa pn rt ex nn il i raw t s
    | objectArrayAnchor pa pn si nn na =>
      exact execObjectArrayAnchor_setTag pc pa pn si nn na i raw t s
    | arraySingleRowAnchor pa pn nn na =>
      exact execArraySingleRowAnchor_setTag pa pn nn i raw t s
    | singleRowValue ai ex => exact execSingleRowValue_setTag pc ai ex i raw t s
    | singleFetchedRef ai pa pn rt ex nn il nc =>
      exact execSingleFetchedRef_setTag pc ai pa pn rt ex nn il nc i raw t s

theorem walkFrom_setTag (pc : PCfg) (row : List Val) :
    ∀ (fuel colInd : Nat) (t : Nat) (s : PState),
      walkFrom pc row fuel colInd (setTag t s) =
        Except.map (setTag t) (walkFrom pc row fuel colInd s) := by
  intro fuel
  induction fuel with
  | zero => intro colInd t s; rfl
  | succ f ih =>
    intro colInd t s
    simp only [walkFrom]
    by_cases hcol : colInd < pc.numColumns
    · simp only [if_pos hcol]
      rw [execStep_setTag]
      cases hstep : execStep pc colInd (row.getD colInd Val.vnull) s with
      | error e => rfl
      | ok q => exact ih q.1 t q.2
    · simp only [if_neg hcol]
      rfl

theorem setTag_skipNextNRows (t : Nat) (s : PState) :
    (setTag t s).skipNextNRows = s.skipNextNRows := rfl

theorem feedRow_setTag (pc : PCfg) (row : List Val) (t : Nat) (s : PState) :
    feedRow pc (setTag t s) row = Except.map (setTag t) (feedRow pc s row) := by
  simp only [feedRow, setTag_skipNextNRows]
  by_cases hskip : s.skipNextNRows > 0
  · simp only [if_pos hskip]
    rfl
  · simp only [if_neg hskip]
    exact walkFrom_setTag pc row (pc.numColumns + 1) 0 t
      { s with rowsProcessed := s.rowsProcessed + 1 }

theorem feedAll_setTag (pc : PCfg) :
    ∀ (rows : List (List Val)) (t : Nat) (s : PState),
      feedAll pc (setTag t s) rows =
        Except.map (setTag t) (feedAll pc s rows) := by
  intro rows
  induction rows with
  | nil => intro t s; rfl
  | cons row rest ih =>
    intro t s
    simp only [feedAll]
    rw [feedRow_setTag]
    cases h : feedRow pc s row with
    | error e => rfl
    | ok s' => exact ih t s'

/-- Claim C10.  Two parser instances built from the same record types
library, the same pure value extractors and the same top record type,
initialized with the same markup — hence sharing the same compiled
handler array pc — and differing only in object identity (the instance
tag), produce structurally equal records and referredRecords when fed
the identical row sequence: the output is a deterministic function of
the constructor inputs, the markup and the rows.  The model threads
every mutable field of ResultSetParser explicitly, so the instance tag
is the only per-instance datum, and the lemmas above show no operation
of the row walk reads it. -/
theorem c10_deterministic_output (pc : PCfg) (t1 t2 : Nat)
    (rows : List (List Val)) :
    outputs (feedAll pc (mkInitState pc t1) rows) =
      outputs (feedAll pc (mkInitState pc t2) rows) := by
  have h1 : mkInitState pc t1 = setTag t1 (mkInitState pc t2) := rfl
  rw [h1, feedAll_setTag]
  cases h : feedAll pc (mkInitState pc t2) rows with
  | error e => rfl
  | ok s => rfl

/-! Claim C1: records preserve the first-sight order of top record ids. -/

/-- The id column of the output: each record's value under the id
property. -/
def idsOf (idProp : String) (s : PState) : List (Option RVal) :=
  s.records.map (getField idProp)

/-- Collapse consecutive runs of equal values, seeded with the last
value seen before the list: the id sequence as the top-id anchor
perceives it. -/
def collapseRuns : Option Val → List Val → List Val
  | _, [] => []
  | lastv, v :: rest =>
    if lastv = some v then collapseRuns lastv rest
    else v :: collapseRuns (some v) rest

/-- First-sight deduplication: keep each value at the position of its
first occurrence. -/
def firstSightDedup (l : List Val) : List Val :=
  l.foldl (fun acc v => if v ∈ acc then acc else acc ++ [v]) []

/-- A write destination that cannot touch the id property of a top
record: either it writes a different property at the top level, or it
descends first into a property other than the id (or into an array
slot, or into a referred record). -/
def SafeWrite (idProp : String) : WTarget → String → Prop
  | WTarget.topRec [], prop => prop ≠ idProp
  | WTarget.topRec (PathStep.field n :: _), _ => n ≠ idProp
  | WTarget.topRec (PathStep.last :: _), _ => True
  | WTarget.referred _ _, _ => True

/-- Conditions on a handler standing at a column after the top-id
column under which the first-sight-order argument goes through,
reflecting the shapes the markup compiler emits: no second top-id
handler (the compiler places exactly one, at column 0), id-safe write
destinations (tail handlers write their own property of the current
record or of a referred record, never the top id property), and the
compile-time cursor destinations lie past column 0 (a post-subtree
column or a linked child anchor is always beyond the column it is
computed from).  Fetched single-reference handlers are included: their
writes are id-safe and their post-subtree column follows their own
column. -/
def TailOk (idProp : String) : HandlerCfg → Prop
  | HandlerCfg.topId _ _ _ => False
  | HandlerCfg.singleValue pa pn _ _ => SafeWrite idProp pa pn
  | HandlerCfg.singleObject _ pa pn _ ncol => SafeWrite idProp pa pn ∧ 1 ≤ ncol
  | HandlerCfg.objectArrayAnchor pa pn _ _ na =>
      SafeWrite idProp pa pn ∧ (na < 0 ∨ 1 ≤ na)
  | HandlerCfg.singleRef pa pn _ _ _ _ => SafeWrite idProp pa pn
  | HandlerCfg.arraySingleRowAnchor pa pn _ _ => SafeWrite idProp pa pn
  | HandlerCfg.singleRowValue _ _ => True
  | HandlerCfg.singleFetchedRef _ pa pn _ _ _ _ nc =>
      SafeWrite idProp pa pn ∧ 1 ≤ nc

/-- What the first-sight induction tracks across one cursor step after
column 0: the id column of the output and the top-id handler's state are
unchanged.  (The skip counter is NOT tracked: a fetched single reference
handler sets it on a re-sighting; the rows it removes are covered by the
result-set well-formedness condition skipsWithinRuns below.) -/
def C1Pres (idProp : String) (s s' : PState) : Prop :=
  idsOf idProp s' = idsOf idProp s ∧
  s'.hstates.get? 0 = s.hstates.get? 0

theorem c1pres_refl (idProp : String) (s : PState) : C1Pres idProp s s :=
  ⟨rfl, rfl⟩

theorem c1pres_trans {idProp : String} {s1 s2 s3 : PState}
    (h12 : C1Pres idProp s1 s2) (h23 : C1Pres idProp s2 s3) :
    C1Pres idProp s1 s3 :=
  ⟨h23.1.trans h12.1, h23.2.trans h12.2⟩

theorem lookupField_setPropList_ne (m : String) :
    ∀ (fs : List (String × RVal)) (n : String) (v : RVal), n ≠ m →
      lookupField (setPropList fs n v) m = lookupField fs m := by
  intro fs
  induction fs with
  | nil => intro n v h; simp [setPropList, lookupField, h]
  | cons kv rest ih =>
    intro n v h
    rcases kv with ⟨k, w⟩
    by_cases hk : k = n
    · subst hk
      simp [setPropList, lookupField, h]
    · simp [setPropList, lookupField, hk, ih _ _ h]

theorem lookupField_updateFieldWith_ne (m : String) :
    ∀ (fs : List (String × RVal)) (n : String) (g : RVal → RVal), n ≠ m →
      lookupField (updateFieldWith fs n g) m = lookupField fs m := by
  intro fs
  induction fs with
  | nil => intro n g h; simp [updateFieldWith]
  | cons kv rest ih =>
    intro n g h
    rcases kv with ⟨k, w⟩
    by_cases hk : k = n
    · subst hk
      simp [updateFieldWith, lookupField, h]
    · simp [updateFieldWith, lookupField, hk, ih _ _ h]

theorem getField_setField_ne (m n : String) (v : RVal) (r : RVal)
    (h : n ≠ m) : getField m (setField n v r) = getField m r := by
  cases r <;> simp [setField, getField, lookupField_setPropList_ne m _ n v h]

theorem getField_pushIntoField_ne (m n : String) (v : RVal) (r : RVal)
    (h : n ≠ m) : getField m (pushIntoField n v r) = getField m r := by
  cases r <;> simp [pushIntoField, getField,
    lookupField_updateFieldWith_ne m _ n _ h]

theorem getField_updateAt_safe (idProp : String) :
    ∀ (p : List PathStep) (g : RVal → RVal),
      (p = [] → ∀ r', getField idProp (g r') = getField idProp r') →
      (∀ n p', p = PathStep.field n :: p' → n ≠ idProp) →
      ∀ r, getField idProp (updateAt p g r) = getField idProp r := by
  intro p g h0 hf r
  cases p with
  | nil => exact h0 rfl r
  | cons step p' =>
    cases step with
    | field n =>
      cases r with
      | obj fs =>
        simp [updateAt, getField,
          lookupField_updateFieldWith_ne idProp fs n _ (hf n p' rfl)]
      | nullv => rfl
      | scalar w => rfl
      | arr es => rfl
    | last =>
      cases r with
      | arr es => simp [updateAt, getField]
      | nullv => rfl
      | scalar w => rfl
      | obj fs => rfl

theorem map_updateLastWith {α β : Type} (f : α → β) :
    ∀ (l : List α) (g : α → α), (∀ x, f (g x) = f x) →
      (updateLastWith l g).map f = l.map f := by
  intro l
  induction l with
  | nil => intro g h; rfl
  | cons a rest ih =>
    intro g h
    cases rest with
    | nil => simp [updateLastWith, h a]
    | cons b rest' =>
      simp only [updateLastWith, List.map]
      rw [ih g h]
      rfl

theorem updateLastWith_append {α : Type} (g : α → α) :
    ∀ (l : List α) (a : α), updateLastWith (l ++ [a]) g = l ++ [g a] := by
  intro l
  induction l with
  | nil => intro a; rfl
  | cons b rest ih =>
    intro a
    cases rest with
    | nil => simp [updateLastWith]
    | cons c rest' =>
      have h2 := ih a
      simp only [List.cons_append, List.append_eq] at h2 ⊢
      simp only [updateLastWith]
      rw [h2]

theorem endReferredRecord_records (s : PState) (c : Nat) (ns : Bool) :
    (endReferredRecord s c ns).records = s.records := by
  unfold endReferredRecord
  repeat' first | rfl | split | dsimp only

theorem endReferredRecord_skip (s : PState) (c : Nat) (ns : Bool) :
    (endReferredRecord s c ns).skipNextNRows = s.skipNextNRows := by
  unfold endReferredRecord
  repeat' first | rfl | split | dsimp only

theorem endReferredRecord_hst (s : PState) (c : Nat) (ns : Bool) :
    (endReferredRecord s c ns).hstates = s.hstates := by
  unfold endReferredRecord
  repeat' first | rfl | split | dsimp only

theorem c1pres_setHState (idProp : String) (s : PState) (i : Nat)
    (st : HState) (hi : 1 ≤ i) : C1Pres idProp s (setHState s i st) :=
  ⟨rfl, listGet_set_ne s.hstates i 0 st (by omega)⟩

theorem c1pres_endReferredRecord (idProp : String) (s : PState) (c : Nat)
    (ns : Bool) : C1Pres idProp s (endReferredRecord s c ns) :=
  ⟨by simp [idsOf, endReferredRecord_records],
   by rw [endReferredRecord_hst]⟩

theorem getField_write_aux (idProp prop : String) (v : RVal)
    (p : List PathStep) (h : SafeWrite idProp (WTarget.topRec p) prop) :
    ∀ x, getField idProp (updateAt p (setField prop v) x) = getField idProp x := by
  intro x
  refine getField_updateAt_safe idProp p _ ?_ ?_ x
  · intro hp r'
    subst hp
    exact getField_setField_ne idProp prop v r' h
  · intro n p' hp
    subst hp
    exact h

theorem getField_push_aux (idProp prop : String) (v : RVal)
    (p : List PathStep) (h : SafeWrite idProp (WTarget.topRec p) prop) :
    ∀ x, getField idProp (updateAt p (pushIntoField prop v) x) = getField idProp x := by
  intro x
  refine getField_updateAt_safe idProp p _ ?_ ?_ x
  · intro hp r'
    subst hp
    exact getField_pushIntoField_ne idProp prop v r' h
  · intro n p' hp
    subst hp
    exact h

theorem idsOf_writeTarget (idProp : String) (s : PState) (t : WTarget)
    (prop : String) (v : RVal) (h : SafeWrite idProp t prop) :
    idsOf idProp (writeTarget s t prop v) = idsOf idProp s := by
  cases t with
  | topRec p =>
    simp only [writeTarget, idsOf]
    exact map_updateLastWith _ s.records _ (getField_write_aux idProp prop v p h)
  | referred c p =>
    rcases hg : assocGet s.fetchingRefs c with _ | rv <;>
      simp [writeTarget, idsOf, hg]

theorem idsOf_appendTarget (idProp : String) (s : PState) (t : WTarget)
    (prop : String) (v : RVal) (h : SafeWrite idProp t prop) :
    idsOf idProp (appendTarget s t prop v) = idsOf idProp s := by
  cases t with
  | topRec p =>
    simp only [appendTarget, idsOf]
    exact map_updateLastWith _ s.records _ (getField_push_aux idProp prop v p h)
  | referred c p =>
    rcases hg : assocGet s.fetchingRefs c with _ | rv <;>
      simp [appendTarget, idsOf, hg]

theorem c1pres_writeTarget (idProp : String) (s : PState) (t : WTarget)
    (prop : String) (v : RVal) (h : SafeWrite idProp t prop) :
    C1Pres idProp s (writeTarget s t prop v) :=
  ⟨idsOf_writeTarget idProp s t prop v h,
   by rw [writeTarget_hstates]⟩

theorem c1pres_appendTarget (idProp : String) (s : PState) (t : WTarget)
    (prop : String) (v : RVal) (h : SafeWrite idProp t prop) :
    C1Pres idProp s (appendTarget s t prop v) :=
  ⟨idsOf_appendTarget idProp s t prop v h,
   by rw [appendTarget_hstates]⟩

theorem c1pres_resetH (idProp : String) (pc : PCfg) (s : PState) (j : Nat)
    (hj : 1 ≤ j) : C1Pres idProp s (resetH pc s j) := by
  unfold resetH
  split
  · exact c1pres_setHState idProp s j _ hj
  · exact c1pres_refl idProp s
  · exact c1pres_refl idProp s
  · exact c1pres_refl idProp s
  · exact c1pres_setHState idProp s j _ hj
  · exact c1pres_setHState idProp s j _ hj
  · exact c1pres_setHState idProp s j _ hj
  · dsimp only
    refine c1pres_trans ?_ (c1pres_setHState idProp _ j _ hj)
    split
    · exact c1pres_endReferredRecord idProp s j _
    · exact c1pres_refl idProp s
  · exact c1pres_refl idProp s

theorem c1pres_resetRange (idProp : String) (pc : PCfg) :
    ∀ (idxs : List Nat) (s : PState), (∀ j ∈ idxs, 1 ≤ j) →
      C1Pres idProp s (resetRange pc s idxs) := by
  intro idxs
  induction idxs with
  | nil => intro s _; exact c1pres_refl idProp s
  | cons j rest ih =>
    intro s h
    have h1 : 1 ≤ j := h j (List.mem_cons_self j rest)
    have h2 : ∀ k ∈ rest, 1 ≤ k := fun k hk => h k (List.mem_cons_of_mem j hk)
    exact c1pres_trans (c1pres_resetH idProp pc s j h1) (ih (resetH pc s j) h2)

theorem c1pres_resetChain (idProp : String) (pc : PCfg) (s : PState)
    (c : Nat) : C1Pres idProp s (resetChain pc s c) := by
  unfold resetChain
  refine c1pres_resetRange idProp pc _ s ?_
  intro j hj
  obtain ⟨i, hi, rfl⟩ := List.mem_range'.mp hj
  omega

theorem c1pres_emptyAt (idProp : String) (pc : PCfg) :
    ∀ (fuel i upper : Nat) (s : PState), 1 ≤ i →
      C1Pres idProp s (emptyAt pc fuel i upper s) := by
  intro fuel
  induction fuel with
  | zero => intro i upper s _; exact c1pres_refl idProp s
  | succ fuel ih =>
    intro i upper s hi
    unfold emptyAt
    split
    · rename_i pa pn si nn nav heq
      split
      · rename_i hcond
        dsimp only
        exact c1pres_trans
          (c1pres_setHState idProp s i (HState.objArraySt (some none)) hi)
          (ih nav.toNat upper
            (setHState s i (HState.objArraySt (some none))) (by omega))
      · exact c1pres_setHState idProp s i _ hi
    · exact c1pres_setHState idProp s i _ hi
    · exact c1pres_refl idProp s

theorem c1pres_emptyChildAnchors (idProp : String) (pc : PCfg) (i upper : Nat)
    (s : PState) : C1Pres idProp s (emptyChildAnchors pc i upper s) := by
  unfold emptyChildAnchors
  split
  · dsimp only
    split
    · rename_i hcond
      exact c1pres_emptyAt idProp pc pc.numColumns _ upper s (by omega)
    · exact c1pres_refl idProp s
  · exact c1pres_refl idProp s

theorem c1_execSingleValue (idProp : String) (pa : WTarget) (pn : String)
    (ex : Val → Option Val) (nn : Bool) (i : Nat) (raw : Val) (s : PState)
    (n : Nat) (s' : PState) (hsafe : SafeWrite idProp pa pn)
    (h : execSingleValue pa pn ex nn i raw s = Except.ok (n, s')) :
    C1Pres idProp s s' ∧ 1 ≤ n := by
  unfold execSingleValue at h
  split at h
  · simp only [Except.ok.injEq, Prod.mk.injEq] at h
    obtain ⟨rfl, rfl⟩ := h
    exact ⟨c1pres_writeTarget idProp s pa pn _ hsafe, by omega⟩
  · split at h
    · exact absurd h (by simp)
    · simp only [Except.ok.injEq, Prod.mk.injEq] at h
      obtain ⟨rfl, rfl⟩ := h
      exact ⟨c1pres_refl idProp s, by omega⟩

theorem c1_execSingleObject (idProp : String) (pc : PCfg) (ai : Nat)
    (pa : WTarget) (pn : String) (nn : Bool) (nc : Nat) (i : Nat) (raw : Val)
    (s : PState) (n : Nat) (s' : PState) (hsafe : SafeWrite idProp pa pn)
    (hnc : 1 ≤ nc) (hi : 1 ≤ i)
    (h : execSingleObject pc ai pa pn nn nc i raw s = Except.ok (n, s')) :
    C1Pres idProp s s' ∧ 1 ≤ n := by
  unfold execSingleObject at h
  split at h
  · split at h
    · exact absurd h (by simp)
    · simp only [Except.ok.injEq, Prod.mk.injEq] at h
      obtain ⟨rfl, rfl⟩ := h
      exact ⟨c1pres_emptyChildAnchors idProp pc ai _ s, hnc⟩
  · dsimp only at h
    simp only [Except.ok.injEq, Prod.mk.injEq] at h
    obtain ⟨rfl, rfl⟩ := h
    refine ⟨c1pres_trans
      (c1pres_setHState idProp s i (HState.singleObjectSt true) hi) ?_,
      by omega⟩
    exact c1pres_writeTarget idProp _ pa pn (RVal.obj []) hsafe

theorem c1_execSingleRef (idProp : String) (pa : WTarget) (pn : String)
    (rt : String) (ex : Val → Option Val) (nn il : Bool) (i : Nat) (raw : Val)
    (s : PState) (n : Nat) (s' : PState) (hsafe : SafeWrite idProp pa pn)
    (h : execSingleRef pa pn rt ex nn il i raw s = Except.ok (n, s')) :
    C1Pres idProp s s' ∧ 1 ≤ n := by
  unfold execSingleRef at h
  split at h
  · simp only [Except.ok.injEq, Prod.mk.injEq] at h
    obtain ⟨rfl, rfl⟩ := h
    exact ⟨c1pres_writeTarget idProp s pa pn _ hsafe, by omega⟩
  · split at h
    · exact absurd h (by simp)
    · split at h
      · exact absurd h (by simp)
      · simp only [Except.ok.injEq, Prod.mk.injEq] at h
        obtain ⟨rfl, rfl⟩ := h
        exact ⟨c1pres_refl idProp s, by omega⟩

theorem c1_execObjectArrayAnchor (idProp : String) (pc : PCfg) (pa : WTarget)
    (pn : String) (si nn : Bool) (na : Int) (i : Nat) (raw : Val) (s : PState)
    (n : Nat) (s' : PState) (hsafe : SafeWrite idProp pa pn)
    (hna : na < 0 ∨ 1 ≤ na) (hi : 1 ≤ i) (hcols : 1 ≤ pc.numColumns)
    (h : execObjectArrayAnchor pc pa pn si nn na i raw s = Except.ok (n, s')) :
    C1Pres idProp s s' ∧ 1 ≤ n := by
  unfold execObjectArrayAnchor at h
  split at h
  · split at h
    · split at h
      · exact absurd h (by simp)
      · exact absurd h (by simp)
      · split at h
        · exact absurd h (by simp)
        · simp only [Except.ok.injEq, Prod.mk.injEq] at h
          obtain ⟨rfl, rfl⟩ := h
          exact ⟨c1pres_setHState idProp s i _ hi, hcols⟩
    · split at h
      · exact absurd h (by simp)
      · split at h
        · split at h
          · exact absurd h (by simp)
          · rename_i hnneg
            simp only [Except.ok.injEq, Prod.mk.injEq] at h
            obtain ⟨rfl, rfl⟩ := h
            exact ⟨c1pres_refl idProp s, by omega⟩
        · dsimp only at h
          split at h
          · split at h
            · simp only [Except.ok.injEq, Prod.mk.injEq] at h
              obtain ⟨rfl, rfl⟩ := h
              refine ⟨?_, by omega⟩
              refine c1pres_trans
                (c1pres_writeTarget idProp s pa pn (RVal.arr []) hsafe) ?_
              refine c1pres_trans (c1pres_setHState idProp _ i
                (HState.objArraySt (some (some raw))) hi) ?_
              refine c1pres_trans (c1pres_resetChain idProp pc _ i) ?_
              exact c1pres_appendTarget idProp _ pa pn (RVal.obj []) hsafe
            · simp only [Except.ok.injEq, Prod.mk.injEq] at h
              obtain ⟨rfl, rfl⟩ := h
              refine ⟨?_, by omega⟩
              refine c1pres_trans (c1pres_setHState idProp _ i
                (HState.objArraySt (some (some raw))) hi) ?_
              refine c1pres_trans (c1pres_resetChain idProp pc _ i) ?_
              exact c1pres_appendTarget idProp _ pa pn (RVal.obj []) hsafe
          · split at h
            · simp only [Except.ok.injEq, Prod.mk.injEq] at h
              obtain ⟨rfl, rfl⟩ := h
              refine ⟨?_, by omega⟩
              refine c1pres_trans
                (c1pres_writeTarget idProp s pa pn (RVal.arr []) hsafe) ?_
              refine c1pres_trans (c1pres_setHState idProp _ i
                (HState.objArraySt (some (some raw))) hi) ?_
              exact c1pres_resetChain idProp pc _ i
            · simp only [Except.ok.injEq, Prod.mk.injEq] at h
              obtain ⟨rfl, rfl⟩ := h
              refine ⟨?_, by omega⟩
              refine c1pres_trans (c1pres_setHState idProp _ i
                (HState.objArraySt (some (some raw))) hi) ?_
              exact c1pres_resetChain idProp pc _ i
  · exact absurd h (by simp)

theorem c1_execArraySingleRowAnchor (idProp : String) (pa : WTarget)
    (pn : String) (nn : Bool) (i : Nat) (raw : Val) (s : PState) (n : Nat)
    (s' : PState) (hsafe : SafeWrite idProp pa pn) (hi : 1 ≤ i)
    (h : execArraySingleRowAnchor pa pn nn i raw s = Except.ok (n, s')) :
    C1Pres idProp s s' ∧ 1 ≤ n := by
  unfold execArraySingleRowAnchor at h
  split at h
  · dsimp only at h
    split at h
    · split at h
      · exact absurd h (by simp)
      · simp only [Except.ok.injEq, Prod.mk.injEq] at h
        obtain ⟨rfl, rfl⟩ := h
        exact ⟨c1pres_refl idProp s, by omega⟩
    · split at h
      · split at h
        · exact absurd h (by simp)
        · simp only [Except.ok.injEq, Prod.mk.injEq] at h
          obtain ⟨rfl, rfl⟩ := h
          exact ⟨c1pres_setHState idProp s i (HState.arr1St true) hi, by omega⟩
      · simp only [Except.ok.injEq, Prod.mk.injEq] at h
        obtain ⟨rfl, rfl⟩ := h
        refine ⟨c1pres_trans
          (c1pres_setHState idProp s i (HState.arr1St true) hi) ?_, by omega⟩
        exact c1pres_writeTarget idProp _ pa pn (RVal.arr []) hsafe
  · exact absurd h (by simp)

theorem c1_execSingleRowValue (idProp : String) (pc : PCfg) (ai : Nat)
    (ex : Val → Option Val) (i : Nat) (raw : Val) (s : PState) (n : Nat)
    (s' : PState)
    (hanchor : ∀ pa pn nn na,
      pc.handlers.get? ai = some (HandlerCfg.arraySingleRowAnchor pa pn nn na) →
      SafeWrite idProp pa pn)
    (h : execSingleRowValue pc ai ex i raw s = Except.ok (n, s')) :
    C1Pres idProp s s' ∧ 1 ≤ n := by
  unfold execSingleRowValue at h
  split at h
  · rename_i pa pn nn na heq
    dsimp only at h
    simp only [Except.ok.injEq, Prod.mk.injEq] at h
    obtain ⟨rfl, rfl⟩ := h
    exact ⟨c1pres_appendTarget idProp s pa pn _ (hanchor pa pn nn na heq),
      by omega⟩
  · exact absurd h (by simp)

theorem beginReferredRecord_records (s : PState) (rv : String) (c : Nat)
    (ns : Bool) : (beginReferredRecord s rv c ns).2.records = s.records := by
  unfold beginReferredRecord
  repeat' first | rfl | split | dsimp only

theorem beginReferredRecord_hst (s : PState) (rv : String) (c : Nat)
    (ns : Bool) : (beginReferredRecord s rv c ns).2.hstates = s.hstates := by
  unfold beginReferredRecord
  repeat' first | rfl | split | dsimp only

theorem c1pres_beginReferredRecord (idProp : String) (s : PState)
    (rv : String) (c : Nat) (ns : Bool) :
    C1Pres idProp s (beginReferredRecord s rv c ns).2 :=
  ⟨by simp [idsOf, beginReferredRecord_records],
   by rw [beginReferredRecord_hst]⟩

theorem c1_execSingleFetchedRef (idProp : String) (pc : PCfg) (ai : Nat)
    (pa : WTarget) (pn rt : String) (ex : Val → Option Val) (nn il : Bool)
    (nc : Nat) (i : Nat) (raw : Val) (s : PState) (n : Nat) (s' : PState)
    (hsafe : SafeWrite idProp pa pn) (hnc : 1 ≤ nc) (hi : 1 ≤ i)
    (h : execSingleFetchedRef pc ai pa pn rt ex nn il nc i raw s =
      Except.ok (n, s')) : C1Pres idProp s s' ∧ 1 ≤ n := by
  unfold execSingleFetchedRef at h
  split at h
  · split at h
    · split at h
      · exact absurd h (by simp)
      · split at h
        · exact absurd h (by simp)
        · simp only [Except.ok.injEq, Prod.mk.injEq] at h
          obtain ⟨rfl, rfl⟩ := h
          exact ⟨c1pres_emptyChildAnchors idProp pc ai _ s, hnc⟩
    · rename_i rid heq
      dsimp only at h
      split at h
      · simp only [Except.ok.injEq, Prod.mk.injEq] at h
        obtain ⟨rfl, rfl⟩ := h
        refine ⟨?_, hnc⟩
        exact c1pres_trans
          (c1pres_writeTarget idProp s pa pn
            (RVal.scalar (Val.vstr (rt ++ "#" ++ valToString rid))) hsafe)
          (c1pres_trans (c1pres_beginReferredRecord idProp _ _ i _)
            (c1pres_setHState idProp _ i _ hi))
      · simp only [Except.ok.injEq, Prod.mk.injEq] at h
        obtain ⟨rfl, rfl⟩ := h
        refine ⟨?_, by omega⟩
        exact c1pres_trans
          (c1pres_writeTarget idProp s pa pn
            (RVal.scalar (Val.vstr (rt ++ "#" ++ valToString rid))) hsafe)
          (c1pres_trans (c1pres_beginReferredRecord idProp _ _ i _)
            (c1pres_setHState idProp _ i _ hi))
  · exact absurd h (by simp)

theorem execStep_c1pres (idProp : String) (pc : PCfg)
    (ex0 : Val → Option Val) (na0 : Int)
    (htop0 : pc.handlers.get? 0 = some (HandlerCfg.topId idProp ex0 na0))
    (htail : ∀ j cfg, pc.handlers.get? (j + 1) = some cfg → TailOk idProp cfg)
    (i : Nat) (hi : 1 ≤ i) (raw : Val) (s : PState) (n : Nat) (s' : PState)
    (hstep : execStep pc i raw s = Except.ok (n, s')) :
    C1Pres idProp s s' ∧ 1 ≤ n := by
  have hcols : 1 ≤ pc.numColumns := by
    obtain ⟨hl, _⟩ := List.get?_eq_some.mp htop0
    simp only [PCfg.numColumns]
    omega
  obtain ⟨j, rfl⟩ : ∃ j, i = j + 1 := ⟨i - 1, by omega⟩
  unfold execStep at hstep
  cases hc : pc.handlers.get? (j + 1) with
  | none => rw [hc] at hstep; exact absurd hstep (by simp)
  | some cfg =>
    rw [hc] at hstep
    have htok := htail j cfg hc
    cases cfg with
    | topId pn exx naa => exact absurd htok (by simp [TailOk])
    | singleValue pa pn exx nn =>
      exact c1_execSingleValue idProp pa pn exx nn (j + 1) raw s n s' htok hstep
    | singleObject ai pa pn nn nc =>
      exact c1_execSingleObject idProp pc ai pa pn nn nc (j + 1) raw s n s'
        htok.1 htok.2 hi hstep
    | singleRef pa pn rt exx nn il =>
      exact c1_execSingleRef idProp pa pn rt exx nn il (j + 1) raw s n s'
        htok hstep
    | objectArrayAnchor pa pn si nn na =>
      exact c1_execObjectArrayAnchor idProp pc pa pn si nn na (j + 1) raw s n s'
        htok.1 htok.2 hi hcols hstep
    | arraySingleRowAnchor pa pn nn na =>
      exact c1_execArraySingleRowAnchor idProp pa pn nn (j + 1) raw s n s'
        htok hi hstep
    | singleRowValue ai exx =>
      refine c1_execSingleRowValue idProp pc ai exx (j + 1) raw s n s' ?_ hstep
      intro pa pn nn na heq
      match hai : ai with
      | 0 => rw [htop0] at heq; exact absurd heq (by simp)
      | k + 1 =>
        have := htail k _ heq
        exact this
    | singleFetchedRef ai pa pn rt exx nn il nc =>
      exact c1_execSingleFetchedRef idProp pc ai pa pn rt exx nn il nc (j + 1)
        raw s n s' htok.1 htok.2 hi hstep

theorem walkFrom_c1pres (idProp : String) (pc : PCfg)
    (ex0 : Val → Option Val) (na0 : Int)
    (htop0 : pc.handlers.get? 0 = some (HandlerCfg.topId idProp ex0 na0))
    (htail : ∀ j cfg, pc.handlers.get? (j + 1) = some cfg → TailOk idProp cfg)
    (row : List Val) :
    ∀ (fuel c : Nat) (s s' : PState), 1 ≤ c →
      walkFrom pc row fuel c s = Except.ok s' → C1Pres idProp s s' := by
  intro fuel
  induction fuel with
  | zero => intro c s s' _ h; exact absurd h (by simp [walkFrom])
  | succ fuel ih =>
    intro c s s' hc h
    unfold walkFrom at h
    split at h
    · cases hstep : execStep pc c (row.getD c Val.vnull) s with
      | error e => rw [hstep] at h; exact absurd h (by simp)
      | ok p =>
        rw [hstep] at h
        obtain ⟨n, s1⟩ := p
        have hpres := execStep_c1pres idProp pc ex0 na0 htop0 htail c hc _ s n
          s1 hstep
        exact c1pres_trans hpres.1 (ih n s1 s' hpres.2 h)
    · simp only [Except.ok.injEq] at h
      subst h
      exact c1pres_refl idProp s

theorem execTopRecordId_spec (pc : PCfg) (pn : String) (ex : Val → Option Val)
    (na : Int) (raw : Val) (s : PState) (lastv : Option Val) (v : Val)
    (hv : ex raw = some v)
    (hst : s.hstates.get? 0 = some (HState.topIdSt lastv)) :
    execTopRecordId pc pn ex na raw s =
      (if lastv = some v then
        (if na < 0 then
          Except.error
            (PErr.dataError 0 "at least one anchor must change in each row.")
         else Except.ok (na.toNat, s))
       else Except.ok (1,
         writeTarget
           (addNewRecord (resetChain pc
             (setHState s 0 (HState.topIdSt (some v))) 0))
           (WTarget.topRec []) pn (RVal.scalar v))) := by
  unfold execTopRecordId
  rw [hv, hst]

theorem idsOf_newRecord (idProp : String) (v : Val) (t : PState) :
    idsOf idProp (writeTarget (addNewRecord t) (WTarget.topRec []) idProp
      (RVal.scalar v)) = idsOf idProp t ++ [some (RVal.scalar v)] := by
  simp only [writeTarget, addNewRecord, idsOf]
  rw [updateLastWith_append]
  simp [updateAt, setField, setPropList, getField, lookupField]

theorem c1_feedRow (idProp : String) (pc : PCfg) (ex0 : Val → Option Val)
    (na0 : Int)
    (htop0 : pc.handlers.get? 0 = some (HandlerCfg.topId idProp ex0 na0))
    (hna0 : na0 < 0 ∨ 1 ≤ na0)
    (htail : ∀ j cfg, pc.handlers.get? (j + 1) = some cfg → TailOk idProp cfg)
    (s : PState) (lastv : Option Val)
    (hst0 : s.hstates.get? 0 = some (HState.topIdSt lastv))
    (hskip : ¬ s.skipNextNRows > 0)
    (row : List Val) (v : Val) (hv : ex0 (row.getD 0 Val.vnull) = some v)
    (s' : PState) (hrow : feedRow pc s row = Except.ok s') :
    idsOf idProp s' = idsOf idProp s ++
      (if lastv = some v then [] else [some (RVal.scalar v)]) ∧
    s'.hstates.get? 0 = some (HState.topIdSt (some v)) := by
  have hcols : 0 < pc.numColumns := by
    obtain ⟨hl, _⟩ := List.get?_eq_some.mp htop0
    simp only [PCfg.numColumns]
    omega
  have hlen0 : 0 < s.hstates.length := by
    obtain ⟨hl, _⟩ := List.get?_eq_some.mp hst0
    omega
  unfold feedRow at hrow
  dsimp only at hrow
  rw [if_neg hskip] at hrow
  unfold walkFrom at hrow
  rw [if_pos hcols] at hrow
  have hstep0 : execStep pc 0 (row.getD 0 Val.vnull)
      { s with rowsProcessed := s.rowsProcessed + 1 } =
      execTopRecordId pc idProp ex0 na0 (row.getD 0 Val.vnull)
        { s with rowsProcessed := s.rowsProcessed + 1 } := by
    unfold execStep
    rw [htop0]
  rw [hstep0,
    execTopRecordId_spec pc idProp ex0 na0 (row.getD 0 Val.vnull)
      { s with rowsProcessed := s.rowsProcessed + 1 } lastv v hv hst0] at hrow
  by_cases hlv : lastv = some v
  · rw [if_pos hlv] at hrow
    by_cases hneg : na0 < 0
    · rw [if_pos hneg] at hrow
      exact absurd hrow (by simp)
    · rw [if_neg hneg] at hrow
      dsimp only at hrow
      have hpres := walkFrom_c1pres idProp pc ex0 na0 htop0 htail row
        pc.numColumns na0.toNat { s with rowsProcessed := s.rowsProcessed + 1 }
        s' (by omega) hrow
      refine ⟨?_, ?_⟩
      · rw [if_pos hlv, List.append_nil]
        exact hpres.1
      · rw [← hlv]
        exact hpres.2.trans hst0
  · rw [if_neg hlv] at hrow
    dsimp only at hrow
    have hpres := walkFrom_c1pres idProp pc ex0 na0 htop0 htail row
      pc.numColumns 1 _ s' (by omega) hrow
    have hchain := c1pres_resetChain idProp pc
      (setHState { s with rowsProcessed := s.rowsProcessed + 1 } 0
        (HState.topIdSt (some v))) 0
    refine ⟨?_, ?_⟩
    · rw [if_neg hlv, hpres.1, idsOf_newRecord, hchain.1]
      rfl
    · rw [hpres.2]
      have hw : (writeTarget
          (addNewRecord (resetChain pc
            (setHState { s with rowsProcessed := s.rowsProcessed + 1 } 0
              (HState.topIdSt (some v))) 0))
          (WTarget.topRec []) idProp (RVal.scalar v)).hstates =
          (resetChain pc
            (setHState { s with rowsProcessed := s.rowsProcessed + 1 } 0
              (HState.topIdSt (some v))) 0).hstates := by
        rw [writeTarget_hstates]
        rfl
      rw [hw, hchain.2]
      exact listGet_set_self s.hstates 0 (HState.topIdSt (some v)) hlen0

/-- The last top id the parser has seen: the state of the top record id
handler at column 0. -/
def topLastVal (s : PState) : Option (Option Val) :=
  match s.hstates.get? 0 with
  | some (HState.topIdSt lv) => some lv
  | _ => none

/-- Well-formedness of a result set towards a markup with fetched
references (the join shape of the row stream): whenever the parser is
about to consume a row by row skipping (skipNextNRows positive), that
row's top id cell carries the id of the current top record, so skipped
rows never hide a new top record.  A real join result set satisfies
this: a re-sighted fetched referred record spans the same rows as its
first materialization, inside a single top record's run. -/
def skipsWithinRuns (pc : PCfg) (ex0 : Val → Option Val) :
    PState → List (List Val) → Bool
  | _, [] => true
  | s, row :: rest =>
    (!(decide (s.skipNextNRows > 0)) ||
      decide (some (ex0 (row.getD 0 Val.vnull)) = topLastVal s)) &&
    (match feedRow pc s row with
     | Except.ok s' => skipsWithinRuns pc ex0 s' rest
     | Except.error _ => true)

theorem c1_feedRow_skip (pc : PCfg) (s : PState) (row : List Val)
    (hskip : s.skipNextNRows > 0) (s' : PState)
    (hrow : feedRow pc s row = Except.ok s') :
    s'.records = s.records ∧ s'.hstates = s.hstates := by
  unfold feedRow at hrow
  dsimp only at hrow
  rw [if_pos hskip] at hrow
  simp only [Except.ok.injEq] at hrow
  subst hrow
  exact ⟨rfl, rfl⟩

theorem c1_feedAll (idProp : String) (pc : PCfg) (ex0 : Val → Option Val)
    (na0 : Int)
    (htop0 : pc.handlers.get? 0 = some (HandlerCfg.topId idProp ex0 na0))
    (hna0 : na0 < 0 ∨ 1 ≤ na0)
    (htail : ∀ j cfg, pc.handlers.get? (j + 1) = some cfg → TailOk idProp cfg) :
    ∀ (rows : List (List Val)) (vids : List Val) (s : PState)
      (lastv : Option Val),
      s.hstates.get? 0 = some (HState.topIdSt lastv) →
      skipsWithinRuns pc ex0 s rows = true →
      rows.map (fun row => ex0 (row.getD 0 Val.vnull)) = vids.map some →
      ∀ s', feedAll pc s rows = Except.ok s' →
      idsOf idProp s' = idsOf idProp s ++
        (collapseRuns lastv vids).map (fun v => some (RVal.scalar v)) := by
  intro rows
  induction rows with
  | nil =>
    intro vids s lastv hst hwf hmap s' hfeed
    cases vids with
    | nil =>
      simp only [feedAll, Except.ok.injEq] at hfeed
      subst hfeed
      simp [collapseRuns]
    | cons v vr => simp at hmap
  | cons row rest ih =>
    intro vids s lastv hst hwf hmap s' hfeed
    cases vids with
    | nil => simp at hmap
    | cons v vr =>
      simp only [List.map, List.cons.injEq] at hmap
      obtain ⟨hv, hmr⟩ := hmap
      unfold feedAll at hfeed
      unfold skipsWithinRuns at hwf
      rw [Bool.and_eq_true] at hwf
      obtain ⟨hwf1, hwf2⟩ := hwf
      cases hr : feedRow pc s row with
      | error e => rw [hr] at hfeed; exact absurd hfeed (by simp)
      | ok s1 =>
        rw [hr] at hfeed hwf2
        dsimp only at hfeed hwf2
        by_cases hsk : s.skipNextNRows > 0
        · simp only [decide_eq_true hsk, Bool.not_true, Bool.false_or,
            decide_eq_true_eq] at hwf1
          have h2 : topLastVal s = some lastv := by
            unfold topLastVal
            rw [hst]
          rw [hv, h2] at hwf1
          injection hwf1 with h3
          have hlv : lastv = some v := h3.symm
          have hkeep := c1_feedRow_skip pc s row hsk s1 hr
          have hst1 : s1.hstates.get? 0 = some (HState.topIdSt lastv) := by
            rw [hkeep.2]
            exact hst
          have hrec := ih vr s1 lastv hst1 hwf2 hmr s' hfeed
          rw [hrec]
          have hids1 : idsOf idProp s1 = idsOf idProp s := by
            simp [idsOf, hkeep.1]
          rw [hids1,
            show collapseRuns lastv (v :: vr) = collapseRuns lastv vr from by
              simp [collapseRuns, hlv]]
        · have hstep := c1_feedRow idProp pc ex0 na0 htop0 hna0 htail s lastv
            hst hsk row v hv s1 hr
          have hrec := ih vr s1 (some v) hstep.2 hwf2 hmr s' hfeed
          rw [hrec, hstep.1]
          by_cases hlv : lastv = some v
          · simp [collapseRuns, hlv]
          · simp [collapseRuns, hlv, List.append_assoc]

theorem mem_collapseRuns (v : Val) :
    ∀ (l : List Val) (lastv : Option Val), v ∈ l →
      v ∈ collapseRuns lastv l ∨ lastv = some v := by
  intro l
  induction l with
  | nil => intro lastv h; exact absurd h (by simp)
  | cons a rest ih =>
    intro lastv h
    by_cases hla : lastv = some a
    · rw [show collapseRuns lastv (a :: rest) = collapseRuns lastv rest from
        by simp [collapseRuns, hla]]
      rcases List.mem_cons.mp h with rfl | hmem
      · exact Or.inr hla
      · exact ih lastv hmem
    · rw [show collapseRuns lastv (a :: rest) =
          a :: collapseRuns (some a) rest from by simp [collapseRuns, hla]]
      rcases List.mem_cons.mp h with rfl | hmem
      · exact Or.inl (List.mem_cons_self _ _)
      · rcases ih (some a) hmem with hin | heq
        · exact Or.inl (List.mem_cons_of_mem a hin)
        · rcases heq with ⟨rfl⟩
          exact Or.inl (List.mem_cons_self _ _)

theorem firstSightDedup_foldl :
    ∀ (l : List Val) (acc : List Val) (lastv : Option Val),
      (acc ++ collapseRuns lastv l).Nodup →
      (∀ w, lastv = some w → w ∈ acc) →
      List.foldl (fun acc v => if v ∈ acc then acc else acc ++ [v]) acc l =
        acc ++ collapseRuns lastv l := by
  intro l
  induction l with
  | nil => intro acc lastv _ _; simp [collapseRuns]
  | cons a rest ih =>
    intro acc lastv hnd hlast
    by_cases hla : lastv = some a
    · have hca : collapseRuns lastv (a :: rest) = collapseRuns lastv rest := by
        simp [collapseRuns, hla]
      rw [hca] at hnd ⊢
      have hain : a ∈ acc := hlast a hla
      simp only [List.foldl, if_pos hain]
      exact ih acc lastv hnd hlast
    · have hca : collapseRuns lastv (a :: rest) =
          a :: collapseRuns (some a) rest := by
        simp [collapseRuns, hla]
      rw [hca] at hnd ⊢
      have hnotin : a ∉ acc := by
        intro hain
        have := (List.nodup_append.mp hnd).2.2
        exact this hain (List.mem_cons_self a _)
      simp only [List.foldl, if_neg hnotin]
      have hnd' : ((acc ++ [a]) ++ collapseRuns (some a) rest).Nodup := by
        rw [List.append_assoc]
        simpa using hnd
      have hlast' : ∀ w, some a = some w → w ∈ acc ++ [a] := by
        intro w hw
        cases hw
        simp
      rw [ih (acc ++ [a]) (some a) hnd' hlast']
      simp

/-- **C1.** For a markup whose column 0 carries the top record id handler
(with a well-formed child-anchor link) and whose remaining columns carry
the compiler-emitted tail handler shapes (TailOk: id-safe writes,
forward cursor destinations — fetched single-reference handlers
included), and a well-formed row stream — its id column extracts to the
given id sequence, the stream is grouped by id (the run-collapsed id
sequence has no duplicates), and the join shape is respected, i.e. the
rows removed by fetched-reference row skipping stay inside the top
record run that initiated them (skipsWithinRuns): after feeding all
rows, the id column of `records` is exactly the run-collapsed id
sequence in order — which equals the first-sight deduplication of the
observed ids — so each observed top-id value corresponds to exactly one
record, positioned at the order of its first sighting. -/
theorem c1_records_first_sight_order (pc : PCfg) (idProp : String)
    (ex0 : Val → Option Val) (na0 : Int) (tag : Nat)
    (rows : List (List Val)) (vids : List Val) (sF : PState)
    (htop0 : pc.handlers.get? 0 = some (HandlerCfg.topId idProp ex0 na0))
    (hna0 : na0 < 0 ∨ 1 ≤ na0)
    (htail : ∀ j cfg, pc.handlers.get? (j + 1) = some cfg → TailOk idProp cfg)
    (hmap : rows.map (fun row => ex0 (row.getD 0 Val.vnull)) = vids.map some)
    (hgrouped : (collapseRuns none vids).Nodup)
    (hwf : skipsWithinRuns pc ex0 (mkInitState pc tag) rows = true)
    (hfeed : feedAll pc (mkInitState pc tag) rows = Except.ok sF) :
    idsOf idProp sF =
      (collapseRuns none vids).map (fun v => some (RVal.scalar v)) ∧
    firstSightDedup vids = collapseRuns none vids ∧
    (idsOf idProp sF).Nodup ∧
    ∀ v ∈ vids, some (RVal.scalar v) ∈ idsOf idProp sF := by
  have hst : (mkInitState pc tag).hstates.get? 0 =
      some (HState.topIdSt none) := by
    show (pc.handlers.map initHState).get? 0 = _
    rw [listGet_map, htop0]
    rfl
  have hids := c1_feedAll idProp pc ex0 na0 htop0 hna0 htail rows vids
    (mkInitState pc tag) none hst hwf hmap sF hfeed
  have hids' : idsOf idProp sF =
      (collapseRuns none vids).map (fun v => some (RVal.scalar v)) := by
    rw [hids]
    simp [idsOf, mkInitState]
  have hinj : Function.Injective (fun v : Val => some (RVal.scalar v)) := by
    intro a b h
    simpa using h
  refine ⟨hids', ?_, ?_, ?_⟩
  · have hfold := firstSightDedup_foldl vids [] none (by simpa using hgrouped)
      (by intro w hw; exact absurd hw (by simp))
    simpa [firstSightDedup] using hfold
  · rw [hids']
    exact hgrouped.map hinj
  · intro v hv
    rw [hids']
    rcases mem_collapseRuns v vids none hv with hin | heq
    · exact List.mem_map_of_mem _ hin
    · exact absurd heq (by simp)

/-- The four-column markup of the C1 witness: the top record id column,
a fetched single reference, and inside the referred record a nested
object array anchor and its element value column.  The top anchor links
the phones anchor (column 2) as its child; the fetched reference's
post-subtree column is the row end, so its rows participate in row
skipping. -/
def c1WitnessCfg : PCfg :=
  { handlers := [
      HandlerCfg.topId "id" extractValue 2,
      HandlerCfg.singleFetchedRef 0 (WTarget.topRec []) "location" "Location"
        extractValue true false 4,
      HandlerCfg.objectArrayAnchor (WTarget.referred 1 []) "phones" true true
        (-1),
      HandlerCfg.singleValue
        (WTarget.referred 1 [PathStep.field "phones", PathStep.last]) "num"
        extractValue true] }

/-- The six-row result set of the C1 witness: three top records that all
reference the same fetched Location record spanning two rows (its two
phones); the second and third sightings are materialized by row
skipping (one row each is consumed without executing any handler). -/
def c1WitnessRows : List (List Val) :=
  [[Val.vnum 1, Val.vnum 25, Val.vnum 101, Val.vstr "111"],
   [Val.vnum 1, Val.vnum 25, Val.vnum 102, Val.vstr "222"],
   [Val.vnum 2, Val.vnum 25, Val.vnum 101, Val.vstr "111"],
   [Val.vnum 2, Val.vnum 25, Val.vnum 102, Val.vstr "222"],
   [Val.vnum 3, Val.vnum 25, Val.vnum 101, Val.vstr "111"],
   [Val.vnum 3, Val.vnum 25, Val.vnum 102, Val.vstr "222"]]

/-- The parser state after feeding the C1 witness rows: three records in
first-sight id order, the shared referred record with its two phones,
its recorded two-row span, and all six rows counted (two of them
consumed by row skipping). -/
def c1WitnessFinal : PState :=
  ⟨[RVal.obj [("id", RVal.scalar (Val.vnum 1)),
      ("location", RVal.scalar (Val.vstr "Location#25"))],
    RVal.obj [("id", RVal.scalar (Val.vnum 2)),
      ("location", RVal.scalar (Val.vstr "Location#25"))],
    RVal.obj [("id", RVal.scalar (Val.vnum 3)),
      ("location", RVal.scalar (Val.vstr "Location#25"))]],
   [("Location#25", RVal.obj [("phones", RVal.arr
      [RVal.obj [("num", RVal.scalar (Val.vstr "111"))],
       RVal.obj [("num", RVal.scalar (Val.vstr "222"))]])])],
   [("Location#25:1", 2)], 0, 6, [(1, "Location#25")],
   [HState.topIdSt (some (Val.vnum 3)), HState.fetchedSt false false,
    HState.objArraySt none, HState.inertSt], 0⟩

/-- C1 witness: the fetched-reference markup fed with six rows (two of
them row-skipped) produces one record per top id in first-sight order. -/
theorem c1_witness :
    idsOf "id" c1WitnessFinal =
      [some (RVal.scalar (Val.vnum 1)), some (RVal.scalar (Val.vnum 2)),
       some (RVal.scalar (Val.vnum 3))] ∧
    firstSightDedup [Val.vnum 1, Val.vnum 1, Val.vnum 2, Val.vnum 2,
        Val.vnum 3, Val.vnum 3] =
      collapseRuns none [Val.vnum 1, Val.vnum 1, Val.vnum 2, Val.vnum 2,
        Val.vnum 3, Val.vnum 3] ∧
    (idsOf "id" c1WitnessFinal).Nodup ∧
    some (RVal.scalar (Val.vnum 2)) ∈ idsOf "id" c1WitnessFinal := by
  have h := c1_records_first_sight_order c1WitnessCfg "id" extractValue 2 0
    c1WitnessRows
    [Val.vnum 1, Val.vnum 1, Val.vnum 2, Val.vnum 2, Val.vnum 3, Val.vnum 3]
    c1WitnessFinal rfl (Or.inr (by decide))
    (by
      intro j cfg hcfg
      match j with
      | 0 =>
        simp only [c1WitnessCfg, List.get?, Option.some.injEq] at hcfg
        subst hcfg
        simp only [TailOk, SafeWrite]
        exact ⟨by decide, by decide⟩
      | 1 =>
        simp only [c1WitnessCfg, List.get?, Option.some.injEq] at hcfg
        subst hcfg
        simp only [TailOk, SafeWrite]
        exact ⟨trivial, Or.inl (by decide)⟩
      | 2 =>
        simp only [c1WitnessCfg, List.get?, Option.some.injEq] at hcfg
        subst hcfg
        simp only [TailOk, SafeWrite]
      | k + 3 =>
        simp [c1WitnessCfg, List.get?] at hcfg)
    rfl (by decide) rfl rfl
  exact ⟨h.1, h.2.1, h.2.2.1, h.2.2.2 (Val.vnum 2) (by decide)⟩
